import Mathlib

set_option maxHeartbeats 1000000

namespace Mcpp

/-- The opening brace character, written via its code point. -/
def lbrace : Char := Char.ofNat 123

/-- The closing brace character, written via its code point. -/
def rbrace : Char := Char.ofNat 125

/-- JavaScript values as they flow through the MCPP endpoints: strings,
numbers (modelled as integers), booleans, `null`, `undefined` (which arises
from out-of-range array indexing), arrays and plain objects. -/
inductive Json where
  | str (s : String)
  | num (n : Int)
  | bool (b : Bool)
  | null
  | undef
  | arr (items : List Json)
  | obj (fields : List (String × Json))
deriving Repr

/-- JavaScript truthiness of a value (`""`, `0`, `false`, `null` and
`undefined` are falsy; arrays and objects are always truthy). -/
def Json.truthy : Json → Bool
  | .str s => !s.isEmpty
  | .num n => n != 0
  | .bool b => b
  | .null => false
  | .undef => false
  | .arr _ => true
  | .obj _ => true

mutual

/-- The JavaScript `String(v)` coercion: array elements are joined with
commas (with `null`/`undefined` elements rendered empty), objects render as
the object tag. -/
def jsToString : Json → String
  | .str s => s
  | .num n => toString n
  | .bool b => if b then "true" else "false"
  | .null => "null"
  | .undef => "undefined"
  | .obj _ => "[object Object]"
  | .arr items => String.intercalate "," (jsArrayElemStrings items)

/-- Element-wise rendering used by `Array.prototype.join`. -/
def jsArrayElemStrings : List Json → List String
  | [] => []
  | .null :: rest => "" :: jsArrayElemStrings rest
  | .undef :: rest => "" :: jsArrayElemStrings rest
  | v :: rest => jsToString v :: jsArrayElemStrings rest

end

/-- Escape a string body for `JSON.stringify` (quotes and backslashes only;
the cached values exercised here contain no control characters). -/
def jsonEscape (s : String) : String :=
  String.mk (s.toList.flatMap fun c => if c = '"' || c = '\\' then ['\\', c] else [c])

mutual

/-- The `JSON.stringify` rendering used when a consent summary is built from
a non-string payload. `undefined` entries are dropped from objects and
rendered as `null` inside arrays, as in JavaScript. -/
def jsonStringify : Json → String
  | .str s => "\"" ++ jsonEscape s ++ "\""
  | .num n => toString n
  | .bool b => if b then "true" else "false"
  | .null => "null"
  | .undef => "null"
  | .arr items => "[" ++ String.intercalate "," (jsonStringifyArr items) ++ "]"
  | .obj fields => "\x7b" ++ String.intercalate "," (jsonStringifyObj fields) ++ "\x7d"

/-- Array elements under `JSON.stringify` (`undefined` becomes `null`). -/
def jsonStringifyArr : List Json → List String
  | [] => []
  | v :: rest => jsonStringify v :: jsonStringifyArr rest

/-- Object entries under `JSON.stringify` (`undefined`-valued keys dropped). -/
def jsonStringifyObj : List (String × Json) → List String
  | [] => []
  | (_, .undef) :: rest => jsonStringifyObj rest
  | (k, v) :: rest =>
      ("\"" ++ jsonEscape k ++ "\":" ++ jsonStringify v) :: jsonStringifyObj rest

end

/-- The character class `[a-zA-Z0-9_-]` of the placeholder grammar. -/
def wordChar (c : Char) : Bool :=
  (c.isAlpha && c.toNat < 128) || c.isDigit || c = '_' || c = '-'

/-- One attempt, at the head of `l`, of the placeholder regular expression
`[lbrace]([a-zA-Z0-9_-]+[.][0-9]+[.][a-zA-Z0-9_-]+)[rbrace]` from
`mcpp-placeholders.ts`. On success it returns the captured group (the text
between the braces) together with the characters after the match. Since each
character class excludes the delimiter that follows it, maximal munch agrees
with the backtracking regex semantics. -/
def tryMatch (l : List Char) : Option (List Char × List Char) :=
  match l with
  | [] => none
  | c :: r0 =>
    if c = lbrace then
      let a := r0.takeWhile wordChar
      match r0.dropWhile wordChar with
      | '.' :: r2 =>
        if a.isEmpty then none else
        let d := r2.takeWhile Char.isDigit
        match r2.dropWhile Char.isDigit with
        | '.' :: r4 =>
          if d.isEmpty then none else
          let cc := r4.takeWhile wordChar
          match r4.dropWhile wordChar with
          | e :: r6 =>
            if cc.isEmpty then none
            else if e = rbrace then some (a ++ '.' :: (d ++ '.' :: cc), r6)
            else none
          | [] => none
        | _ => none
      | _ => none
    else none

theorem dropWhile_decomp {p : Char → Bool} {l r : List Char} {c : Char}
    (h : l.dropWhile p = c :: r) : l = l.takeWhile p ++ c :: r := by
  conv_lhs => rw [← List.takeWhile_append_dropWhile (p := p) (l := l)]
  rw [h]

theorem tryMatch_append {l inner rest : List Char}
    (h : tryMatch l = some (inner, rest)) :
    l = lbrace :: (inner ++ rbrace :: rest) := by
  unfold tryMatch at h
  match l, h with
  | c :: r0, h =>
    simp only at h
    split at h
    · rename_i hc
      subst hc
      split at h
      · rename_i r2 hdrop
        split at h
        · exact absurd h (by simp)
        · split at h
          · rename_i r4 hdrop2
            split at h
            · exact absurd h (by simp)
            · split at h
              · rename_i e r6 hdrop3
                split at h
                · exact absurd h (by simp)
                · split at h
                  · rename_i he
                    subst he
                    injection h with h
                    injection h with h1 h2
                    subst h1; subst h2
                    have e0 := dropWhile_decomp hdrop
                    have e2 := dropWhile_decomp hdrop2
                    have e4 := dropWhile_decomp hdrop3
                    conv_lhs => rw [e0, e2, e4]
                    simp [List.append_assoc]
                  · exact absurd h (by simp)
              · exact absurd h (by simp)
          · exact absurd h (by simp)
      · exact absurd h (by simp)
    · exact absurd h (by simp)

theorem tryMatch_rest_lt {l inner rest : List Char}
    (h : tryMatch l = some (inner, rest)) : rest.length < l.length := by
  rw [tryMatch_append h]
  simp only [List.length_cons, List.length_append]
  omega

/-- One piece of a scanned string: either a raw character outside every
match, or the captured group of one placeholder match. -/
inductive Piece where
  | raw (c : Char)
  | ph (inner : List Char)
deriving Repr, DecidableEq

/-- The global scan of the placeholder regex: leftmost non-overlapping
matches, restarting right after each match, advancing one character when no
match starts at the current position. The fuel is consumed once per step;
each step drops at least one character, so the input length suffices. -/
def scanPiecesAux : Nat → List Char → List Piece
  | 0, _ => []
  | _ + 1, [] => []
  | fuel + 1, c :: cs =>
    match tryMatch (c :: cs) with
    | some (inner, rest) => .ph inner :: scanPiecesAux fuel rest
    | none => .raw c :: scanPiecesAux fuel cs

/-- The scan started with enough fuel for the whole input. -/
def scanPieces (l : List Char) : List Piece :=
  scanPiecesAux l.length l

/-- Reassemble the scanned pieces into the original character list. -/
def flattenPieces : List Piece → List Char
  | [] => []
  | .raw c :: ps => c :: flattenPieces ps
  | .ph inner :: ps => lbrace :: (inner ++ rbrace :: flattenPieces ps)

/-- Render scanned pieces, substituting `f inner` for each match. -/
def renderPieces (f : List Char → List Char) : List Piece → List Char
  | [] => []
  | .raw c :: ps => c :: renderPieces f ps
  | .ph inner :: ps => f inner ++ renderPieces f ps

/-- The captured groups of all matches of the scan, in order. -/
def phsOf (ps : List Piece) : List (List Char) :=
  ps.filterMap fun p => match p with | .ph inner => some inner | .raw _ => none

theorem flattenPieces_scanPiecesAux :
    ∀ (n : Nat) (l : List Char), l.length ≤ n → flattenPieces (scanPiecesAux n l) = l := by
  intro n
  induction n with
  | zero =>
    intro l hl
    have : l = [] := List.eq_nil_of_length_eq_zero (Nat.le_zero.mp hl)
    subst this
    rfl
  | succ n ih =>
    intro l hl
    match l with
    | [] => rfl
    | c :: cs =>
      rw [scanPiecesAux]
      split
      · rename_i inner rest h
        rw [flattenPieces, ih rest (by
          have := tryMatch_rest_lt h
          simp only [List.length_cons] at this hl
          omega)]
        exact (tryMatch_append h).symm
      · rw [flattenPieces, ih cs (by simp at hl; omega)]

theorem flattenPieces_scanPieces (l : List Char) :
    flattenPieces (scanPieces l) = l :=
  flattenPieces_scanPiecesAux l.length l le_rfl

/-- The table payload `(headers, rows)` of a cached `table` entry. -/
structure TableData where
  headers : List String
  rows : List (List Json)
deriving Repr

/-- A cached entry as produced by `processDataResponse` and served by the
endpoints: a `type` discriminator together with the matching payload. -/
inductive CachedEntry where
  | table (payload : TableData)
  | text (payload : String)
  | json (payload : Json)
deriving Repr

/-- The in-memory data cache (`dataCache`), a map from tool-call ids to
cached entries, modelled as an association list looked up from the front. -/
def DataCache := List (String × CachedEntry)

/-- `dataCache.get`. -/
def DataCache.get (cache : DataCache) (toolCallId : String) : Option CachedEntry :=
  List.lookup toolCallId cache

/-- `dataCache.keys` (`getAvailableCaches`). -/
def DataCache.keys (cache : DataCache) : List String :=
  cache.map (·.1)

/-- `String.prototype.split` on the dot character. -/
def splitDots (l : List Char) : List (List Char) :=
  match l with
  | [] => [[]]
  | c :: cs =>
    if c = '.' then [] :: splitDots cs
    else
      match splitDots cs with
      | g :: gs => (c :: g) :: gs
      | [] => [[c]]

/-- Numeric value of a run of decimal digits. -/
def digitsToNat (l : List Char) : Nat :=
  l.foldl (fun n c => n * 10 + (c.toNat - 48)) 0

/-- `parseInt(s, 10)` restricted to the non-negative inputs produced by the
placeholder grammar: the leading digit run is parsed, and `none` stands for
`NaN` when there is no leading digit. -/
def parseIntDec (l : List Char) : Option Nat :=
  let ds := l.takeWhile Char.isDigit
  if ds.isEmpty then none else some (digitsToNat ds)

/-- Result record of `resolveSinglePlaceholder`. -/
structure McppResolutionResult where
  success : Bool
  value : Json
deriving Repr

/-- `resolveSinglePlaceholder` from `mcpp-placeholders.ts`: split the inner
placeholder text on dots, parse the row index, and look the cell up in the
cache; only `table` entries resolve, and a missing column or row fails. An
in-range row shorter than the header list yields the JavaScript `undefined`
for the cell, as in the source. -/
def resolveSinglePlaceholder (placeholder : String) (cache : DataCache) :
    McppResolutionResult :=
  match splitDots placeholder.toList with
  | [toolCallId, rowIndexStr, columnName] =>
    match parseIntDec rowIndexStr with
    | none => ⟨false, .null⟩
    | some rowIndex =>
      match cache.get (String.mk toolCallId) with
      | some (.table payload) =>
        match payload.headers.findIdx? (· = String.mk columnName) with
        | none => ⟨false, .null⟩
        | some columnIndex =>
          match payload.rows.get? rowIndex with
          | none => ⟨false, .null⟩
          | some row => ⟨true, row.getD columnIndex .undef⟩
      | _ => ⟨false, .null⟩
  | _ => ⟨false, .null⟩

/-- The anchored `SINGLE_PLACEHOLDER_REGEX`: the whole string must be one
placeholder; returns the captured group. -/
def singleMatch (s : String) : Option (List Char) :=
  match tryMatch s.toList with
  | some (inner, []) => some inner
  | _ => none

/-- The replacement text used for one embedded match: the stringified cell
on success, the original matched text on failure. -/
def embeddedReplacement (cache : DataCache) (inner : List Char) : List Char :=
  let r := resolveSinglePlaceholder (String.mk inner) cache
  if r.success then (jsToString r.value).toList
  else lbrace :: (inner ++ [rbrace])

/-- The string case of `resolveInObject` in `resolveArgumentPlaceholders`:
a sole placeholder is replaced by the raw cell value (type preserved), and
otherwise every embedded match is replaced in place by its stringified cell,
failures keeping their original text. -/
def resolveString (cache : DataCache) (s : String) : Json :=
  match singleMatch s with
  | some ph =>
    let result := resolveSinglePlaceholder (String.mk ph) cache
    if result.success then result.value else .str s
  | none =>
    .str (String.mk (renderPieces (embeddedReplacement cache) (scanPieces s.toList)))

mutual

/-- `resolveInObject` from `resolveArgumentPlaceholders`: strings are
resolved, arrays element-wise, objects value-wise, and all other scalars
(numbers, booleans, `null`, `undefined`) are returned unchanged. -/
def resolveInObject (cache : DataCache) : Json → Json
  | .str s => resolveString cache s
  | .arr items => .arr (resolveInObjectList cache items)
  | .obj fields => .obj (resolveInObjectFields cache fields)
  | v => v

/-- The element-wise walk of an array. -/
def resolveInObjectList (cache : DataCache) : List Json → List Json
  | [] => []
  | x :: xs => resolveInObject cache x :: resolveInObjectList cache xs

/-- The value-wise walk of an object, keys untouched. -/
def resolveInObjectFields (cache : DataCache) :
    List (String × Json) → List (String × Json)
  | [] => []
  | (k, v) :: kvs => (k, resolveInObject cache v) :: resolveInObjectFields cache kvs

end

theorem resolveInObjectList_eq_map (cache : DataCache) (items : List Json) :
    resolveInObjectList cache items = items.map (resolveInObject cache) := by
  induction items with
  | nil => rfl
  | cons x xs ih => rw [resolveInObjectList, ih, List.map_cons]

theorem resolveInObjectFields_eq_map (cache : DataCache) (fields : List (String × Json)) :
    resolveInObjectFields cache fields =
      fields.map fun kv => (kv.1, resolveInObject cache kv.2) := by
  induction fields with
  | nil => rfl
  | cons kv kvs ih =>
    obtain ⟨k, v⟩ := kv
    rw [resolveInObjectFields, ih, List.map_cons]

theorem resolveInObject_arr (cache : DataCache) (items : List Json) :
    resolveInObject cache (.arr items) = .arr (items.map (resolveInObject cache)) := by
  rw [resolveInObject, resolveInObjectList_eq_map]

theorem resolveInObject_obj (cache : DataCache) (fields : List (String × Json)) :
    resolveInObject cache (.obj fields) =
      .obj (fields.map fun kv => (kv.1, resolveInObject cache kv.2)) := by
  rw [resolveInObject, resolveInObjectFields_eq_map]

theorem renderPieces_of_all_id (ps : List Piece)
    (f : List Char → List Char)
    (hf : ∀ inner ∈ phsOf ps, f inner = lbrace :: (inner ++ [rbrace])) :
    renderPieces f ps = flattenPieces ps := by
  induction ps with
  | nil => rfl
  | cons p ps ih =>
    match p with
    | .raw c =>
      rw [renderPieces, flattenPieces, ih]
      intro inner hm
      exact hf inner (by simp [phsOf] at hm ⊢; exact hm)
    | .ph inner =>
      rw [renderPieces, flattenPieces,
        hf inner (by simp [phsOf]),
        ih (fun i hm => hf i (by simp [phsOf] at hm ⊢; exact Or.inr hm))]
      simp

/-- The captured groups of every match of the global placeholder regex in a
character list, in scan order. -/
def matchesOf (l : List Char) : List (List Char) :=
  phsOf (scanPieces l)

/-- `String.prototype.replace` with a plain string pattern: the first
occurrence of `pat` is replaced (dollar substitutions are not exercised by
the cached values modelled here). -/
def replaceFirstAux (pat repl : List Char) : List Char → List Char
  | [] => []
  | c :: cs =>
    if pat.isPrefixOf (c :: cs) then repl ++ (c :: cs).drop pat.length
    else c :: replaceFirstAux pat repl cs

/-- String-level first-occurrence replacement. -/
def replaceFirst (s pat repl : String) : String :=
  String.mk (replaceFirstAux pat.toList repl.toList s.toList)

/-- The mutable `resolutionTracking` record of `handleResolvePlaceholders`. -/
structure TrackingCounts where
  total_placeholders : Nat
  resolved_placeholders : Nat
  failed_placeholders : List String
deriving Repr

/-- Pointwise combination of tracking counters accumulated over a walk. -/
def TrackingCounts.add (a b : TrackingCounts) : TrackingCounts :=
  ⟨a.total_placeholders + b.total_placeholders,
   a.resolved_placeholders + b.resolved_placeholders,
   a.failed_placeholders ++ b.failed_placeholders⟩

/-- Sum of a list of tracking counters, in traversal order. -/
def sumCounts (cs : List TrackingCounts) : TrackingCounts :=
  cs.foldl TrackingCounts.add ⟨0, 0, []⟩

/-- The embedded-placeholder loop of `resolveWithTracking` in
`handleResolvePlaceholders`: `exec` iterates over the matches of the
original string while each successful resolution replaces the first
occurrence of the matched text in the accumulated output string. -/
def resolveStringTracked (cache : DataCache) (s : String) : String × TrackingCounts :=
  (matchesOf s.toList).foldl
    (fun acc inner =>
      let fullPlaceholder := String.mk (lbrace :: (inner ++ [rbrace]))
      let resolution := resolveSinglePlaceholder (String.mk inner) cache
      if resolution.success then
        (replaceFirst acc.1 fullPlaceholder (jsToString resolution.value),
         ⟨acc.2.total_placeholders + 1, acc.2.resolved_placeholders + 1,
          acc.2.failed_placeholders⟩)
      else
        (acc.1,
         ⟨acc.2.total_placeholders + 1, acc.2.resolved_placeholders,
          acc.2.failed_placeholders ++ [fullPlaceholder]⟩))
    (s, ⟨0, 0, []⟩)

/-- `resolveWithTracking` from `handleResolvePlaceholders`: a falsy value is
returned as-is; a sole-placeholder string preserves the cell value type; any
other string goes through the embedded loop; arrays and objects are walked
recursively while the counters accumulate. -/
def resolveWithTrackingJson (cache : DataCache) (data : Json) : Json × TrackingCounts :=
  if data.truthy = false then (data, ⟨0, 0, []⟩)
  else
    match data with
    | .str s =>
      match singleMatch s with
      | some ph =>
        let resolution := resolveSinglePlaceholder (String.mk ph) cache
        if resolution.success then (resolution.value, ⟨1, 1, []⟩)
        else (.str s, ⟨1, 0, [s]⟩)
      | none =>
        let r := resolveStringTracked cache s
        (.str r.1, r.2)
    | .arr items =>
      let rs := items.attach.map fun x => resolveWithTrackingJson cache x.1
      (.arr (rs.map (·.1)), sumCounts (rs.map (·.2)))
    | .obj fields =>
      let rs := fields.attach.map fun kv => (kv.1.1, resolveWithTrackingJson cache kv.1.2)
      (.obj (rs.map fun r => (r.1, r.2.1)), sumCounts (rs.map (·.2.2)))
    | v => (v, ⟨0, 0, []⟩)
decreasing_by
  · have := List.sizeOf_lt_of_mem x.2
    simp only [Json.arr.sizeOf_spec]
    omega
  · have h1 := List.sizeOf_lt_of_mem kv.2
    have h2 : sizeOf kv.1.2 < sizeOf kv.1 := by
      obtain ⟨a, b⟩ := kv.1
      simp
    simp only [Json.obj.sizeOf_spec]
    omega

/-- `Math.round((resolved / total) * 100)` with the 100 default on an empty
walk, as computed for `resolution_status.success_rate`. -/
def successRate (total resolved : Nat) : Int :=
  if 0 < total then ((resolved : ℚ) / (total : ℚ) * 100 + 1 / 2).floor else 100

/-- Whether a string resolves nothing under the resolver: a sole placeholder
that fails, or a string all of whose embedded matches fail. -/
def strFailsAll (cache : DataCache) (s : String) : Bool :=
  match singleMatch s with
  | some ph => !(resolveSinglePlaceholder (String.mk ph) cache).success
  | none =>
    (matchesOf s.toList).all fun inner =>
      !(resolveSinglePlaceholder (String.mk inner) cache).success

mutual

/-- Whether no placeholder occurrence anywhere in the tree resolves
successfully against the given cache. -/
def resolvesNone (cache : DataCache) : Json → Bool
  | .str s => strFailsAll cache s
  | .arr items => resolvesNoneList cache items
  | .obj fields => resolvesNoneFields cache fields
  | _ => true

/-- Element-wise conjunction over an array. -/
def resolvesNoneList (cache : DataCache) : List Json → Bool
  | [] => true
  | x :: xs => resolvesNone cache x && resolvesNoneList cache xs

/-- Value-wise conjunction over an object. -/
def resolvesNoneFields (cache : DataCache) : List (String × Json) → Bool
  | [] => true
  | (_, v) :: kvs => resolvesNone cache v && resolvesNoneFields cache kvs

end

theorem resolvesNoneList_eq_all (cache : DataCache) (items : List Json) :
    resolvesNoneList cache items = items.all (resolvesNone cache) := by
  induction items with
  | nil => rfl
  | cons x xs ih => rw [resolvesNoneList, ih, List.all_cons]

theorem resolvesNoneFields_eq_all (cache : DataCache) (fields : List (String × Json)) :
    resolvesNoneFields cache fields = fields.all fun kv => resolvesNone cache kv.2 := by
  induction fields with
  | nil => rfl
  | cons kv kvs ih =>
    obtain ⟨k, v⟩ := kv
    rw [resolvesNoneFields, ih, List.all_cons]

theorem String_mk_toList (s : String) : String.mk s.toList = s := rfl

theorem resolveString_id_of_strFailsAll (cache : DataCache) (s : String)
    (h : strFailsAll cache s = true) : resolveString cache s = .str s := by
  unfold strFailsAll at h
  unfold resolveString
  split
  · rename_i ph hph
    rw [hph] at h
    simp only [Bool.not_eq_eq_eq_not, Bool.not_true] at h
    simp [h]
  · rename_i hph
    rw [hph] at h
    congr 1
    have hall : ∀ inner ∈ phsOf (scanPieces s.toList),
        embeddedReplacement cache inner = lbrace :: (inner ++ [rbrace]) := by
      intro inner hm
      have := List.all_eq_true.mp h inner hm
      simp only [Bool.not_eq_eq_eq_not, Bool.not_true] at this
      unfold embeddedReplacement
      simp [this]
    rw [renderPieces_of_all_id _ _ hall, flattenPieces_scanPieces]
    exact String_mk_toList s

theorem resolveInObject_id_of_resolvesNone_aux (cache : DataCache) :
    ∀ (n : Nat) (x : Json), sizeOf x ≤ n → resolvesNone cache x = true →
      resolveInObject cache x = x := by
  intro n
  induction n with
  | zero =>
    intro x hx
    cases x <;> simp at hx
  | succ n ih =>
    intro x hx h
    match x with
    | .str s =>
      rw [resolvesNone] at h
      rw [resolveInObject]
      exact resolveString_id_of_strFailsAll cache s h
    | .arr items =>
      rw [resolvesNone, resolvesNoneList_eq_all] at h
      rw [resolveInObject_arr]
      congr 1
      have hmem : ∀ y ∈ items, resolvesNone cache y = true := by
        intro y hy
        exact List.all_eq_true.mp h y hy
      have hsz : ∀ y ∈ items, sizeOf y ≤ n := by
        intro y hy
        have := List.sizeOf_lt_of_mem hy
        simp only [Json.arr.sizeOf_spec] at hx
        omega
      calc items.map (resolveInObject cache)
          = items.map id := List.map_congr_left fun y hy => ih y (hsz y hy) (hmem y hy)
        _ = items := List.map_id items
    | .obj fields =>
      rw [resolvesNone, resolvesNoneFields_eq_all] at h
      rw [resolveInObject_obj]
      congr 1
      have hmem : ∀ kv ∈ fields, resolvesNone cache kv.2 = true := by
        intro kv hkv
        exact List.all_eq_true.mp h kv hkv
      have hsz : ∀ kv ∈ fields, sizeOf kv.2 ≤ n := by
        intro kv hkv
        have h1 := List.sizeOf_lt_of_mem hkv
        have h2 : sizeOf kv.2 < sizeOf kv := by
          obtain ⟨a, b⟩ := kv
          simp
        simp only [Json.obj.sizeOf_spec] at hx
        omega
      calc fields.map (fun kv => (kv.1, resolveInObject cache kv.2))
          = fields.map id := List.map_congr_left fun kv hkv => by
            simp [ih kv.2 (hsz kv hkv) (hmem kv hkv)]
        _ = fields := List.map_id fields
    | .num m => rw [resolveInObject] <;> simp
    | .bool b => rw [resolveInObject] <;> simp
    | .null => rw [resolveInObject] <;> simp
    | .undef => rw [resolveInObject] <;> simp

theorem resolveInObject_id_of_resolvesNone (cache : DataCache) (x : Json)
    (h : resolvesNone cache x = true) : resolveInObject cache x = x :=
  resolveInObject_id_of_resolvesNone_aux cache (sizeOf x) x le_rfl h

/-- The four data-usage levels. -/
inductive DataUsage where
  | display
  | process
  | store
  | transfer
deriving Repr, DecidableEq

/-- Wire spelling of a usage level, used in keys and messages. -/
def DataUsage.toStr : DataUsage → String
  | .display => "display"
  | .process => "process"
  | .store => "store"
  | .transfer => "transfer"

/-- A policy literal: `allow`, `deny` or `prompt`. -/
inductive Perm where
  | allow
  | deny
  | prompt
deriving Repr, DecidableEq

/-- The target kinds of `McppUsageContext.target.type`. -/
inductive TargetType where
  | client
  | server
  | servers
  | llm
  | all
deriving Repr, DecidableEq

/-- Wire spelling of a target type, used in template strings. -/
def TargetType.toStr : TargetType → String
  | .client => "client"
  | .server => "server"
  | .servers => "servers"
  | .llm => "llm"
  | .all => "all"

/-- A target destination: a single name or a list of names. -/
inductive Destination where
  | str (s : String)
  | list (xs : List String)
deriving Repr, DecidableEq

/-- Truthiness of the `destination` local after the string cast. -/
def destTruthy : Option Destination → Bool
  | none => false
  | some (.str s) => !s.isEmpty
  | some (.list _) => true

/-- `xs.includes(destination)`: array destinations never compare equal to a
string element, mirroring JavaScript reference equality. -/
def destIncludes (xs : List String) : Option Destination → Bool
  | some (.str s) => xs.contains s
  | _ => false

/-- Rendering of the destination inside template strings (a JavaScript array
joins its elements with commas). -/
def destDisplay : Option Destination → String
  | none => "undefined"
  | some (.str s) => s
  | some (.list xs) => String.intercalate "," xs

/-- The requester block of a usage context. -/
structure Requester where
  host_id : String
  session_id : Option String := none
  timestamp : Int := 0
deriving Repr, DecidableEq

/-- The target block of a usage context (`purpose` and `llm_metadata` are
never read by the validation functions and are omitted). -/
structure Target where
  type : TargetType
  destination : Option Destination := none
deriving Repr, DecidableEq

/-- `McppUsageContext`. -/
structure McppUsageContext where
  data_usage : DataUsage
  requester : Requester
  target : Target
deriving Repr, DecidableEq

/-- A policy field holding either a list of names, the literal string value
meaning every target, or the literal string value meaning no target. -/
inductive TargetListPolicy where
  | list (xs : List String)
  | all
  | none
deriving Repr, DecidableEq

/-- Per-level optional permissions of `dataPolicy.data_usage_permissions`. -/
structure DataUsagePermissions where
  display : Option Perm := Option.none
  process : Option Perm := Option.none
  store : Option Perm := Option.none
  transfer : Option Perm := Option.none
deriving Repr, DecidableEq

/-- Indexing `data_usage_permissions[dataUsage]`. -/
def DataUsagePermissions.get (p : DataUsagePermissions) : DataUsage → Option Perm
  | .display => p.display
  | .process => p.process
  | .store => p.store
  | .transfer => p.transfer

/-- Replace the entry at one usage level. -/
def DataUsagePermissions.setAt (p : DataUsagePermissions) :
    DataUsage → Option Perm → DataUsagePermissions
  | .display, v => { p with display := v }
  | .process, v => { p with process := v }
  | .store, v => { p with store := v }
  | .transfer, v => { p with transfer := v }

/-- `dataPolicy.target_permissions`, unified and legacy lists. -/
structure TargetPermissions where
  allowed_targets : Option TargetListPolicy := Option.none
  blocked_targets : Option (List String) := Option.none
  allowed_clients : Option TargetListPolicy := Option.none
  allowed_servers : Option TargetListPolicy := Option.none
  blocked_servers : Option (List String) := Option.none
deriving Repr, DecidableEq

/-- `dataPolicy.consent_overrides`. -/
structure ConsentOverrides where
  always_require_consent : Bool := false
  never_require_consent : Bool := false
  custom_consent_message : Option String := Option.none
  allowed_without_consent : Option (List String) := Option.none
deriving Repr, DecidableEq

/-- A tool data policy. -/
structure DataPolicy where
  data_usage_permissions : Option DataUsagePermissions := Option.none
  target_permissions : Option TargetPermissions := Option.none
  consent_overrides : Option ConsentOverrides := Option.none
deriving Repr, DecidableEq

/-- A tool definition, restricted to the fields the MCPP core reads. -/
structure Tool where
  name : String
  isSensitive : Bool := false
  dataPolicy : Option DataPolicy := Option.none
deriving Repr, DecidableEq

/-- `require_consent_for` flags. -/
structure RequireConsentFor where
  sensitive_data_transfer : Bool
  external_server_transfer : Bool
  cross_domain_transfer : Bool
  llm_data_access : Bool
  any_transfer : Bool
deriving Repr, DecidableEq

/-- `user_consent_settings`. -/
structure UserConsentSettings where
  require_consent_for : RequireConsentFor
  consent_timeout_seconds : Nat
  default_on_timeout : String
  cache_consent_duration_minutes : Nat
  trusted_targets : List String
  trusted_domains : List String
  show_data_preview : Bool
  show_destination_info : Bool
  allow_remember_choice : Bool
deriving Repr, DecidableEq

/-- Optional metadata of a target category. -/
structure CategoryMetadata where
  provider : Option String := Option.none
  model_type : Option String := Option.none
  data_retention : Option String := Option.none
  allowed_data_types : Option (List String) := Option.none
  domain : Option String := Option.none
  application_type : Option String := Option.none
deriving Repr, DecidableEq

/-- One entry of `target_categories`. -/
structure TargetCategoryInfo where
  type : String
  category : String
  trust_level : String
  requires_consent : Bool
  metadata : Option CategoryMetadata := Option.none
  description : Option String := Option.none
deriving Repr, DecidableEq

/-- `default_target_policy`. -/
structure DefaultTargetPolicy where
  client : Perm
  server : TargetListPolicy
  servers : TargetListPolicy
  llm : Perm
  all : Perm
deriving Repr, DecidableEq

/-- `default_data_usage_policy`: one mandatory literal per level. -/
structure DefaultDataUsagePolicy where
  display : Perm
  process : Perm
  store : Perm
  transfer : Perm
deriving Repr, DecidableEq

/-- Indexing `default_data_usage_policy[dataUsage]`. -/
def DefaultDataUsagePolicy.get (p : DefaultDataUsagePolicy) : DataUsage → Perm
  | .display => p.display
  | .process => p.process
  | .store => p.store
  | .transfer => p.transfer

/-- `global_policies`. -/
structure GlobalPolicies where
  default_data_usage_policy : DefaultDataUsagePolicy
  default_target_policy : DefaultTargetPolicy
  user_consent_settings : UserConsentSettings
  target_categories : List (String × TargetCategoryInfo)
deriving Repr, DecidableEq

/-- `McppServerConfig`. -/
structure McppServerConfig where
  global_policies : GlobalPolicies
deriving Repr, DecidableEq

/-- `validateDataUsage` from `mcpp-validation.ts`: position of the granted
level in the hierarchy list must be at least that of the required level.
This helper is defined in the source but never invoked by
`validateDataAccess`. -/
def validateDataUsage (required granted : DataUsage) : Bool :=
  let hierarchy : List DataUsage := [.display, .process, .store, .transfer]
  hierarchy.indexOf required ≤ hierarchy.indexOf granted

/-- `getEffectiveDataUsagePermission`: the tool-level entry for the
requested level when present (a permission literal is always truthy),
otherwise the server default for that same level. -/
def getEffectiveDataUsagePermission (tool : Option Tool) (dataUsage : DataUsage)
    (serverConfig : McppServerConfig) : Perm :=
  match tool.bind (·.dataPolicy) |>.bind (·.data_usage_permissions) |>.bind (·.get dataUsage) with
  | some p => p
  | Option.none => serverConfig.global_policies.default_data_usage_policy.get dataUsage

/-- The `(allowed, reason)` record returned by `validateTargetPermissions`. -/
structure TargetValidation where
  allowed : Bool
  reason : String
deriving Repr, DecidableEq

/-- The legacy `blocked_servers` / `allowed_servers` / `allowed_clients`
checks of `validateTargetPermissions`, applied only when the target type
matches; `Option.none` means the checks fell through without deciding. -/
def legacyTargetDecision (policy : TargetPermissions) (target : Target) :
    Option TargetValidation :=
  let destination := target.destination
  if target.type = .server then
    if (policy.blocked_servers.map fun bl => destIncludes bl destination).getD false then
      some ⟨false, "server_blocked_by_tool"⟩
    else
      match policy.allowed_servers with
      | some (.list xs) =>
        if !destIncludes xs destination then some ⟨false, "server_not_in_allowlist"⟩
        else Option.none
      | some .none => some ⟨false, "no_servers_allowed"⟩
      | _ => Option.none
  else if target.type = .client then
    match policy.allowed_clients with
    | some (.list xs) =>
      if !destIncludes xs destination then some ⟨false, "client_not_in_allowlist"⟩
      else Option.none
    | some .none => some ⟨false, "no_clients_allowed"⟩
    | _ => Option.none
  else Option.none

/-- The tool-level portion of `validateTargetPermissions`: unified blocked
then allowed lists, then the legacy per-type lists; `Option.none` means the
block fell through without deciding. -/
def toolTargetDecision (policy : TargetPermissions) (target : Target) :
    Option TargetValidation :=
  let destination := target.destination
  if (policy.blocked_targets.map fun bl => destIncludes bl destination).getD false then
    some ⟨false, target.type.toStr ++ "_blocked_by_tool"⟩
  else
    match policy.allowed_targets with
    | some (.list xs) =>
      if !destIncludes xs destination then
        some ⟨false, target.type.toStr ++ "_not_in_allowlist"⟩
      else legacyTargetDecision policy target
    | some .none => some ⟨false, "no_targets_allowed"⟩
    | _ => legacyTargetDecision policy target

/-- `validateTargetPermissions`: tool-level checks (entered only when the
tool carries `target_permissions` and the destination is truthy), then the
global `default_target_policy`. -/
def validateTargetPermissions (tool : Option Tool) (usageContext : McppUsageContext)
    (serverConfig : McppServerConfig) : TargetValidation :=
  let target := usageContext.target
  let toolDecision : Option TargetValidation :=
    match tool.bind (·.dataPolicy) |>.bind (·.target_permissions) with
    | some policy =>
      if destTruthy target.destination then toolTargetDecision policy target
      else Option.none
    | Option.none => Option.none
  match toolDecision with
  | some d => d
  | Option.none =>
    let globalPolicy := serverConfig.global_policies.default_target_policy
    if target.type = .server then
      match globalPolicy.server, target.destination with
      | .list xs, some (.str s) =>
        if !xs.contains s then ⟨false, "server_not_in_global_allowlist"⟩
        else ⟨true, "validation_passed"⟩
      | .none, _ => ⟨false, "no_servers_allowed_globally"⟩
      | _, _ => ⟨true, "validation_passed"⟩
    else if target.type = .llm then
      if globalPolicy.llm = .deny then ⟨false, "llms_denied_globally"⟩
      else ⟨true, "validation_passed"⟩
    else ⟨true, "validation_passed"⟩

/-- Modelled from the spec: the error-code constants of `mcpp-errors.ts`
(the file itself is absent from the sources; the numeric values are the
stable wire contract table of the spec, which the core README repeats). -/
def MCPP_ERRORS.INVALID_PARAMS : Int := -32602

/-- Modelled from the spec: unknown method. -/
def MCPP_ERRORS.METHOD_NOT_FOUND : Int := -32601

/-- Modelled from the spec: unhandled fault. -/
def MCPP_ERRORS.INTERNAL_ERROR : Int := -32603

/-- Modelled from the spec: placeholder referenced an absent entry. -/
def MCPP_ERRORS.CACHE_MISS : Int := -32001

/-- Modelled from the spec: similarity below threshold. -/
def MCPP_ERRORS.REFERENCE_NOT_FOUND : Int := -32002

/-- Modelled from the spec: aggregate resolver failure. -/
def MCPP_ERRORS.RESOLUTION_FAILED : Int := -32003

/-- Modelled from the spec: unknown tool-call id or consent id. -/
def MCPP_ERRORS.DATA_NOT_FOUND : Int := -32004

/-- Modelled from the spec: policy denied access. -/
def MCPP_ERRORS.INSUFFICIENT_PERMISSIONS : Int := -32005

/-- Modelled from the spec: requested level not permitted. -/
def MCPP_ERRORS.INVALID_DATA_USAGE : Int := -32006

/-- Modelled from the spec: dispatcher needs a consent decision. -/
def MCPP_ERRORS.CONSENT_REQUIRED : Int := -32007

/-- Modelled from the spec: user returned deny. -/
def MCPP_ERRORS.CONSENT_DENIED : Int := -32008

/-- Modelled from the spec: pending wait expired. -/
def MCPP_ERRORS.CONSENT_TIMEOUT : Int := -32009

/-- Modelled from the spec: unparseable target specification. -/
def MCPP_ERRORS.INVALID_TARGET : Int := -32010

/-- `ConsentCheckResult`. -/
structure ConsentCheckResult where
  consent_required : Bool
  reason : List String
  consent_cache_key : Option String := Option.none
  trusted_server : Bool
  custom_message : Option String := Option.none
deriving Repr, DecidableEq

/-- First match wins in the `trusted_domains` loop: a leading wildcard entry
compares the suffix, otherwise the whole destination is compared. Every
matching entry produces the same exemption, so any-match is equivalent. -/
def trustedDomainMatch (domains : List String) (dest : Option Destination) : Bool :=
  domains.any fun domain =>
    if domain.startsWith "*." then
      match dest with
      | some (.str s) => s.endsWith (domain.drop 2)
      | _ => false
    else
      match dest with
      | some (.str s) => s = domain
      | _ => false

/-- `target_categories[destination]`: object indexing by the destination
string (an array destination never hits a configured key). -/
def catLookup (cats : List (String × TargetCategoryInfo)) (dest : Option Destination) :
    Option TargetCategoryInfo :=
  match dest with
  | some (.str s) => List.lookup s cats
  | _ => Option.none

/-- The consent message template with the tool override applied first (an
empty override string is falsy and falls back to the template). -/
def consentMessageOrDefault (tool : Option Tool) (target : Target)
    (destination : Option Destination) : String :=
  let defaultMsg := "This operation will send data to " ++ target.type.toStr ++
    " \x27" ++ destDisplay destination ++ "\x27. Do you want to proceed?"
  match tool.bind (·.dataPolicy) |>.bind (·.consent_overrides) |>.bind (·.custom_consent_message) with
  | some m => if m = "" then defaultMsg else m
  | Option.none => defaultMsg

/-- `checkConsentRequired` from `mcpp-validation.ts`: display-to-client
exemption, tool overrides, trusted targets and domains, category exemption,
then the `require_consent_for` trigger flags accumulated in source order. -/
def checkConsentRequired (tool : Option Tool) (usageContext : McppUsageContext)
    (serverConfig : McppServerConfig) : ConsentCheckResult :=
  let target := usageContext.target
  let data_usage := usageContext.data_usage
  let ucs := serverConfig.global_policies.user_consent_settings
  let destination := target.destination
  if data_usage = .display ∧ target.type = .client then
    ⟨false, ["display_to_client"], Option.none, true, Option.none⟩
  else
    let overridesDecision : Option ConsentCheckResult :=
      match tool.bind (·.dataPolicy) |>.bind (·.consent_overrides) with
      | some overrides =>
        if overrides.never_require_consent then
          some ⟨false, ["tool_override_never"], Option.none, true, Option.none⟩
        else if overrides.always_require_consent then
          some ⟨true, ["tool_override_always"], Option.none, false,
            overrides.custom_consent_message⟩
        else if (overrides.allowed_without_consent.map fun xs =>
            destTruthy destination && destIncludes xs destination).getD false then
          some ⟨false, ["tool_allowed_list"], Option.none, true, Option.none⟩
        else Option.none
      | Option.none => Option.none
    match overridesDecision with
    | some d => d
    | Option.none =>
      if destTruthy destination then
        if destIncludes ucs.trusted_targets destination then
          ⟨false, ["trusted_target"], Option.none, true, Option.none⟩
        else if trustedDomainMatch ucs.trusted_domains destination then
          ⟨false, ["trusted_domain"], Option.none, true, Option.none⟩
        else
          let targetInfo := catLookup serverConfig.global_policies.target_categories destination
          if (targetInfo.map fun ti => !ti.requires_consent).getD false then
            ⟨false, ["category_exemption"], Option.none, true, Option.none⟩
          else
            let r1 := if ucs.require_consent_for.any_transfer ∧ data_usage = .transfer then
              ["any_transfer_policy"] else []
            let r2 := if ucs.require_consent_for.sensitive_data_transfer ∧
                (tool.map (·.isSensitive)).getD false = true then
              ["sensitive_data_transfer"] else []
            let r3 := if target.type = .llm ∧ ucs.require_consent_for.llm_data_access then
              ["llm_data_access_policy"] else []
            let r4 := if target.type = .llm ∧
                (targetInfo.bind (·.metadata) |>.bind (·.data_retention)) = some "permanent" then
              ["llm_permanent_retention"] else []
            let r5 := if target.type = .server ∧
                ucs.require_consent_for.external_server_transfer ∧
                (targetInfo.map (·.category)).getD "" = "external" then
              ["external_server_transfer"] else []
            let reasons := r1 ++ r2 ++ r3 ++ r4 ++ r5
            if reasons.isEmpty then
              ⟨false, ["no_consent_required"], Option.none, true, Option.none⟩
            else
              ⟨true, reasons,
               some (destDisplay destination ++ "_" ++ data_usage.toStr ++ "_" ++ target.type.toStr),
               false, some (consentMessageOrDefault tool target destination)⟩
      else ⟨false, ["no_consent_required"], Option.none, true, Option.none⟩

/-- Count the matches of the loose brace regex (an opening brace, one or
more non-closing-brace characters, a closing brace), scanning left to right
without overlap; `fuel` bounds the recursion by the input length. -/
def braceScanAux : Nat → List Char → Nat
  | 0, _ => 0
  | _ + 1, [] => 0
  | fuel + 1, c :: cs =>
    if c = lbrace then
      let body := cs.takeWhile (· ≠ rbrace)
      match cs.dropWhile (· ≠ rbrace) with
      | _ :: rest =>
        if body.isEmpty then braceScanAux fuel cs else 1 + braceScanAux fuel rest
      | [] => braceScanAux fuel cs
    else braceScanAux fuel cs

/-- The placeholder count of a consent data summary. -/
def countBraceMatches (s : String) : Nat :=
  braceScanAux (s.toList.length + 1) s.toList

/-- One attempt of the loose triple regex (brace, a dot-free run, a dot, a
dot-free run, a dot, a run without closing brace, closing brace) used for
the data-type summary; returns the full matched text and the rest. -/
def tripleMatchAt (l : List Char) : Option (List Char × List Char) :=
  match l with
  | [] => none
  | c :: cs =>
    if c = lbrace then
      let a := cs.takeWhile (· ≠ '.')
      match cs.dropWhile (· ≠ '.') with
      | '.' :: r2 =>
        if a.isEmpty then none else
        let b := r2.takeWhile (· ≠ '.')
        match r2.dropWhile (· ≠ '.') with
        | '.' :: r4 =>
          if b.isEmpty then none else
          let g := r4.takeWhile (· ≠ rbrace)
          match r4.dropWhile (· ≠ rbrace) with
          | _ :: r6 =>
            if g.isEmpty then none
            else some (lbrace :: (a ++ '.' :: (b ++ '.' :: (g ++ [rbrace]))), r6)
          | [] => none
        | _ => none
      | _ => none
    else none

/-- All full matches of the loose triple regex, in scan order. -/
def tripleScanAux : Nat → List Char → List (List Char)
  | 0, _ => []
  | _ + 1, [] => []
  | fuel + 1, c :: cs =>
    match tripleMatchAt (c :: cs) with
    | some (full, rest) => full :: tripleScanAux fuel rest
    | none => tripleScanAux fuel cs

/-- String-level triple matches. -/
def tripleMatches (s : String) : List String :=
  (tripleScanAux (s.toList.length + 1) s.toList).map String.mk

/-- Substring containment (`String.prototype.includes`). -/
def hasInfix (needle : List Char) : List Char → Bool
  | [] => needle.isEmpty
  | c :: cs => needle.isPrefixOf (c :: cs) || hasInfix needle cs

/-- The JavaScript `s.toLowerCase()` method, modelled per character. -/
def jsToLowerCase (s : String) : String :=
  String.mk (s.toList.map Char.toLower)

/-- `s.includes(sub)`. -/
def jsIncludes (s sub : String) : Bool :=
  hasInfix sub.toList s.toList

/-- The data-type extraction of `createConsentRequest`: strip the braces of
each triple match, split the inner text on all dots, take the third part (or
the fallback when it is missing or empty), and deduplicate keeping first
occurrences. -/
def extractedDataTypes (s : String) : List String :=
  ((tripleMatches s).map fun m =>
    let inner := (m.toList.drop 1).dropLast
    match (splitDots inner).getD 2 [] with
    | [] => "unknown"
    | p => String.mk p).eraseDups

/-- The sensitive-field filter of `createConsentRequest`. -/
def isSensitiveField (f : String) : Bool :=
  let lf := jsToLowerCase f
  jsIncludes lf "email" || jsIncludes lf "phone" || jsIncludes lf "ssn" ||
    jsIncludes lf "credit" || jsIncludes lf "password"

/-- `data_summary` of a consent request. -/
structure DataSummary where
  placeholder_count : Nat
  data_types : List String
  sensitive_fields : List String
deriving Repr, DecidableEq

/-- `transfer_details` of a consent request. -/
structure TransferDetails where
  destination_server : Option Destination
  destination_description : Option String
  data_usage : DataUsage
  trust_level : String
deriving Repr, DecidableEq

/-- `options` of a consent request. -/
structure ConsentRequestOptions where
  allow_remember : Bool
  timeout_seconds : Nat
  show_data_preview : Bool
deriving Repr, DecidableEq

/-- `ConsentRequest`. The request id is generated from the clock and a
random suffix in the source; it is passed in here as an explicit input. -/
structure ConsentRequest where
  request_id : String
  tool_name : String
  data_summary : DataSummary
  transfer_details : TransferDetails
  options : ConsentRequestOptions
  custom_message : Option String
deriving Repr, DecidableEq

/-- `createConsentRequest` from `mcpp-validation.ts`. -/
def createConsentRequest (tool : Option Tool) (usageContext : McppUsageContext)
    (serverConfig : McppServerConfig) (placeholderData : Json)
    (requestId : String) : ConsentRequest :=
  let destination := usageContext.target.destination
  let targetInfo := catLookup serverConfig.global_policies.target_categories destination
  let placeholderCount : Nat :=
    match placeholderData with
    | .str s => countBraceMatches s
    | .num _ => 0
    | .bool _ => 0
    | .undef => 0
    | pd => countBraceMatches (jsonStringify pd)
  let dataTypes : List String :=
    match placeholderData with
    | .str s => if s.isEmpty then [] else extractedDataTypes s
    | _ => []
  let sensitiveFields := dataTypes.filter isSensitiveField
  { request_id := requestId
  , tool_name :=
      match tool with
      | some t => if t.name = "" then "unknown" else t.name
      | Option.none => "unknown"
  , data_summary := ⟨placeholderCount, dataTypes, sensitiveFields⟩
  , transfer_details :=
      ⟨destination, targetInfo.bind (·.description), usageContext.data_usage,
       match targetInfo with
       | some ti => if ti.trust_level = "" then "low" else ti.trust_level
       | Option.none => "low"⟩
  , options :=
      ⟨serverConfig.global_policies.user_consent_settings.allow_remember_choice,
       serverConfig.global_policies.user_consent_settings.consent_timeout_seconds,
       serverConfig.global_policies.user_consent_settings.show_data_preview⟩
  , custom_message :=
      tool.bind (·.dataPolicy) |>.bind (·.consent_overrides) |>.bind (·.custom_consent_message) }

/-- The `validation_details` block of an evaluator result. -/
structure ValidationDetails where
  data_usage_valid : Bool
  target_permissions_valid : Bool
  consent_check : ConsentCheckResult
deriving Repr, DecidableEq

/-- The full result record of `validateDataAccess`. -/
structure ValidationResult where
  allowed : Bool
  error_code : Option Int := Option.none
  error_message : Option String := Option.none
  consent_request : Option ConsentRequest := Option.none
  validation_details : ValidationDetails
deriving Repr, DecidableEq

/-- `validateDataAccess` from `mcpp-validation.ts`: effective usage
permission first (`deny` short-circuits), then target permissions, then the
consent check, then the `prompt` literal. -/
def validateDataAccess (tool : Option Tool) (usageContext : McppUsageContext)
    (serverConfig : McppServerConfig) (placeholderData : Json)
    (requestId : String) : ValidationResult :=
  let effectivePermission := getEffectiveDataUsagePermission tool usageContext.data_usage serverConfig
  if effectivePermission = .deny then
    { allowed := false
    , error_code := some MCPP_ERRORS.INSUFFICIENT_PERMISSIONS
    , error_message := some ("Data usage \x27" ++ usageContext.data_usage.toStr ++
        "\x27 is not permitted for this tool")
    , consent_request := Option.none
    , validation_details := ⟨false, false, ⟨false, ["denied"], Option.none, false, Option.none⟩⟩ }
  else
    let targetValidation := validateTargetPermissions tool usageContext serverConfig
    if targetValidation.allowed = false then
      { allowed := false
      , error_code := some MCPP_ERRORS.INSUFFICIENT_PERMISSIONS
      , error_message := some ("Target access denied: " ++ targetValidation.reason)
      , consent_request := Option.none
      , validation_details := ⟨true, false, ⟨false, ["target_denied"], Option.none, false, Option.none⟩⟩ }
    else
      let consentCheck := checkConsentRequired tool usageContext serverConfig
      if consentCheck.consent_required then
        { allowed := false
        , error_code := some MCPP_ERRORS.CONSENT_REQUIRED
        , error_message := some "User consent required for data transfer"
        , consent_request := some (createConsentRequest tool usageContext serverConfig
            placeholderData requestId)
        , validation_details := ⟨true, true, consentCheck⟩ }
      else if effectivePermission = .prompt then
        { allowed := false
        , error_code := some MCPP_ERRORS.CONSENT_REQUIRED
        , error_message := some "User confirmation required for this operation"
        , consent_request := some (createConsentRequest tool usageContext serverConfig
            placeholderData requestId)
        , validation_details := ⟨true, true,
            { consentCheck with consent_required := true, reason := ["prompt_required"] }⟩ }
      else
        { allowed := true
        , error_code := Option.none
        , error_message := Option.none
        , consent_request := Option.none
        , validation_details := ⟨true, true, consentCheck⟩ }

/-- The wire rendering of a cached entry, as handed to the evaluator for the
consent summary by `handleGetData`. -/
def CachedEntry.toJson : CachedEntry → Json
  | .table t => .obj [("type", .str "table"),
      ("payload", .obj [("headers", .arr (t.headers.map .str)),
        ("rows", .arr (t.rows.map .arr))])]
  | .text s => .obj [("type", .str "text"), ("payload", .str s)]
  | .json j => .obj [("type", .str "json"), ("payload", j)]

/-- Parameters of `mcpp/get_data`. -/
structure GetDataParams where
  tool_call_id : Option String := Option.none
  usage_context : Option McppUsageContext := Option.none
deriving Repr

/-- Response of `handleGetData`: the cached entry, or the error envelope
with its code, message and optional consent request. -/
inductive GetDataResponse where
  | ok (data : CachedEntry)
  | err (code : Option Int) (message : Option String) (consent_request : Option ConsentRequest)
deriving Repr

/-- `handleGetData` from `mcpp-endpoints.ts`: parameter check, cache lookup,
then policy validation only when both a usage context and a server config
are present; on a not-allowed validation the error carries the validation
error code, message and consent request. -/
def handleGetData (params : Option GetDataParams) (tool : Option Tool)
    (serverConfig : Option McppServerConfig) (cache : DataCache)
    (requestId : String) : GetDataResponse :=
  let usage_context := params.bind (·.usage_context)
  match params.bind (·.tool_call_id) with
  | Option.none =>
    .err (some MCPP_ERRORS.INVALID_PARAMS)
      (some "Invalid params: tool_call_id is required") Option.none
  | some tool_call_id =>
    if tool_call_id.isEmpty then
      .err (some MCPP_ERRORS.INVALID_PARAMS)
        (some "Invalid params: tool_call_id is required") Option.none
    else
      match cache.get tool_call_id with
      | Option.none =>
        .err (some MCPP_ERRORS.DATA_NOT_FOUND)
          (some "Cached data not found for the given tool_call_id") Option.none
      | some data =>
        match usage_context, serverConfig with
        | some ctx, some cfg =>
          let validation := validateDataAccess tool ctx cfg data.toJson requestId
          if validation.allowed then .ok data
          else .err validation.error_code validation.error_message validation.consent_request
        | _, _ => .ok data

/-- Parameters of `mcpp/find_reference`. -/
structure FindReferenceParams where
  tool_call_id : Option String := Option.none
  keyword : Option String := Option.none
  column_name : Option String := Option.none
deriving Repr

/-- Response of `handleFindReference`: on success the minted placeholder
with the winning similarity and its metadata, otherwise the error code with
the best observed similarity when one was computed. -/
inductive FindReferenceResponse where
  | ok (placeholder : String) (message : String) (similarity : ℚ)
      (tool_call_id : String) (row_index : Int) (column_name : String)
      (keyword_searched : String)
  | err (code : Int) (message : String) (best_similarity : Option ℚ)
deriving Repr

/-- The mutable `bestMatch` record of `handleFindReference`, with its
initial sentinel values. -/
structure BestMatch where
  placeholder : String
  similarity : ℚ
  rowIndex : Int
  columnName : String
deriving Repr, DecidableEq

/-- The per-cell similarity: the external Jaro-Winkler library is an npm
dependency, not part of this repository, so the metric is a parameter; it is
applied to the lowercased keyword and the lowercased cell stringification
exactly as at the call site. -/
def cellSimilarity (simf : String → String → ℚ) (keyword : String) (cell : Json) : ℚ :=
  simf (jsToLowerCase keyword) (jsToLowerCase (jsToString cell))

/-- The row-major scan of every cell: rows in order, and within a row the
headers in order; a missing cell of a short row is `undefined`. Each element
carries the row index, the column name and the cell. -/
def scanCellsAll (headers : List String) (rows : List (List Json)) :
    List (Nat × String × Json) :=
  rows.enum.flatMap fun ir => headers.enum.map fun jh => (ir.1, jh.2, ir.2.getD jh.1 .undef)

/-- The scan restricted to one column when `column_name` was supplied. -/
def scanCellsCol (colIndex : Nat) (colName : String) (rows : List (List Json)) :
    List (Nat × String × Json) :=
  rows.enum.map fun ir => (ir.1, colName, ir.2.getD colIndex .undef)

/-- One step of the update loop of `handleFindReference`: the best match is
replaced only on strictly greater similarity. -/
def findBestStep (simf : String → String → ℚ) (keyword refToolCallId : String)
    (bestMatch : BestMatch) (c : Nat × String × Json) : BestMatch :=
  let similarity := cellSimilarity simf keyword c.2.2
  if bestMatch.similarity < similarity then
    ⟨"\x7b" ++ refToolCallId ++ "." ++ toString c.1 ++ "." ++ c.2.1 ++ "\x7d",
     similarity, (c.1 : Int), c.2.1⟩
  else bestMatch

/-- The update loop of `handleFindReference` over the scanned cells, started
from the sentinel record: the first cell attaining the maximum in scan order
wins. -/
def findBest (simf : String → String → ℚ) (keyword refToolCallId : String)
    (cells : List (Nat × String × Json)) : BestMatch :=
  cells.foldl (findBestStep simf keyword refToolCallId) ⟨"", -1, -1, ""⟩

/-- The similarity threshold of the reference finder. -/
def SIMILARITY_THRESHOLD : ℚ := 7 / 10

/-- The final threshold comparison and response assembly of
`handleFindReference`. -/
def finishFindReference (simf : String → String → ℚ)
    (keyword refToolCallId : String) (cells : List (Nat × String × Json)) :
    FindReferenceResponse :=
  let bestMatch := findBest simf keyword refToolCallId cells
  if SIMILARITY_THRESHOLD < bestMatch.similarity then
    .ok bestMatch.placeholder
      ("A match was found in column " ++ bestMatch.columnName ++ " at row " ++
        toString bestMatch.rowIndex)
      bestMatch.similarity refToolCallId bestMatch.rowIndex bestMatch.columnName keyword
  else
    .err MCPP_ERRORS.REFERENCE_NOT_FOUND
      "No suitable reference found for the given keyword" (some bestMatch.similarity)

/-- `handleFindReference` from `mcpp-endpoints.ts`. -/
def handleFindReference (simf : String → String → ℚ)
    (params : Option FindReferenceParams) (cache : DataCache) : FindReferenceResponse :=
  match params.bind (·.tool_call_id), params.bind (·.keyword) with
  | some refToolCallId, some keyword =>
    if refToolCallId.isEmpty || keyword.isEmpty then
      .err MCPP_ERRORS.INVALID_PARAMS "Missing tool_call_id or keyword parameter" Option.none
    else
      match cache.get refToolCallId with
      | some (.table payload) =>
        let headers := payload.headers
        let rows := payload.rows
        let columnName? : Option String :=
          match params.bind (·.column_name) with
          | some cn => if cn.isEmpty then Option.none else some cn
          | Option.none => Option.none
        match columnName? with
        | some columnName =>
          match headers.findIdx? (· = columnName) with
          | Option.none =>
            .err MCPP_ERRORS.INVALID_PARAMS
              ("Invalid params: column \x27" ++ columnName ++ "\x27 not found") Option.none
          | some colIndex =>
            finishFindReference simf keyword refToolCallId
              (scanCellsCol colIndex columnName rows)
        | Option.none =>
          finishFindReference simf keyword refToolCallId (scanCellsAll headers rows)
      | _ =>
        .err MCPP_ERRORS.DATA_NOT_FOUND
          "Cached data not found or not in table format for the given tool_call_id" Option.none
  | _, _ => .err MCPP_ERRORS.INVALID_PARAMS "Missing tool_call_id or keyword parameter" Option.none

/-- Parameters of `mcpp/resolve_placeholders`. -/
structure ResolveParams where
  data : Option Json := Option.none
  usage_context : Option McppUsageContext := Option.none
  tool_name : Option String := Option.none
deriving Repr

/-- Response of `handleResolvePlaceholders`: the resolved data with its
resolution status, or the error envelope. -/
inductive ResolveResponse where
  | ok (resolved_data : Json) (total_placeholders resolved_placeholders : Nat)
      (failed_placeholders : List String) (success_rate : Int)
  | err (code : Option Int) (message : Option String) (consent_request : Option ConsentRequest)
deriving Repr

/-- `handleResolvePlaceholders` from `mcpp-endpoints.ts`: a missing or falsy
`data` parameter is rejected up front; then policy validation runs when a
usage context and server config are present; then the tracked walk. -/
def handleResolvePlaceholders (params : Option ResolveParams) (tool : Option Tool)
    (serverConfig : Option McppServerConfig) (cache : DataCache)
    (requestId : String) : ResolveResponse :=
  let dataOk : Option Json :=
    match params.bind (·.data) with
    | some d => if d.truthy then some d else Option.none
    | Option.none => Option.none
  match dataOk with
  | Option.none =>
    .err (some MCPP_ERRORS.INVALID_PARAMS)
      (some "Invalid params: data is required for placeholder resolution") Option.none
  | some d =>
    let gate : Option ResolveResponse :=
      match params.bind (·.usage_context), serverConfig with
      | some ctx, some cfg =>
        let validation := validateDataAccess tool ctx cfg d requestId
        if validation.allowed then Option.none
        else some (.err validation.error_code validation.error_message validation.consent_request)
      | _, _ => Option.none
    match gate with
    | some e => e
    | Option.none =>
      let r := resolveWithTrackingJson cache d
      .ok r.1 r.2.total_placeholders r.2.resolved_placeholders r.2.failed_placeholders
        (successRate r.2.total_placeholders r.2.resolved_placeholders)

/-- One remembered decision of the consent cache. -/
structure ConsentCacheEntry where
  decision : String
  timestamp : Int
  duration_minutes : Nat
  requester_host_id : String
  destination : String
  data_usage : String
deriving Repr, DecidableEq

/-- The mutable state of the `ConsentCache` class: the decision cache map
and the keys of the pending requests (each pending entry's resolver handle
is the out-of-band waiter and carries no further observable state). -/
structure ConsentState where
  cache : List (String × ConsentCacheEntry)
  pendingRequests : List String
deriving Repr, DecidableEq

/-- Absolute expiry time of a cached decision. -/
def consentExpiry (e : ConsentCacheEntry) : Int :=
  e.timestamp + e.duration_minutes * 60 * 1000

/-- `cleanupExpiredEntries`: drop entries whose expiry has passed. -/
def cleanupExpiredEntries (m : List (String × ConsentCacheEntry)) (now : Int) :
    List (String × ConsentCacheEntry) :=
  m.filter fun kv => !(decide (consentExpiry kv.2 < now))

/-- `Map.set` on the decision cache. -/
def consentMapSet (k : String) (v : ConsentCacheEntry)
    (m : List (String × ConsentCacheEntry)) : List (String × ConsentCacheEntry) :=
  (k, v) :: m.filter fun kv => kv.1 ≠ k

/-- `ConsentCache.setConsent`: write the entry, then clean up expired ones. -/
def ConsentCache.setConsent (st : ConsentState) (cacheKey decision : String)
    (durationMinutes : Nat) (requesterHostId destination dataUsage : String)
    (now : Int) : ConsentState :=
  { st with
    cache :=
      cleanupExpiredEntries
        (consentMapSet cacheKey
          ⟨decision, now, durationMinutes, requesterHostId, destination, dataUsage⟩
          st.cache)
        now }

/-- `ConsentCache.getConsent`: a missing entry is `none`; an expired entry
is purged and reported as `none`; otherwise the decision. -/
def ConsentCache.getConsent (st : ConsentState) (cacheKey : String) (now : Int) :
    Option String × ConsentState :=
  match List.lookup cacheKey st.cache with
  | Option.none => (Option.none, st)
  | some entry =>
    if consentExpiry entry < now then
      (Option.none, { st with cache := st.cache.filter fun kv => kv.1 ≠ cacheKey })
    else (some entry.decision, st)

/-- `ConsentCache.generateCacheKey`: host, destination and usage joined with
the double-colon separator, plus the tool name only when truthy. -/
def ConsentCache.generateCacheKey (requesterHostId destination dataUsage : String)
    (toolName : Option String) : String :=
  let parts := [requesterHostId, destination, dataUsage]
  let parts :=
    match toolName with
    | some t => if t = "" then parts else parts ++ [t]
    | Option.none => parts
  String.intercalate "::" parts

/-- `ConsentCache.resolveConsentRequest`: wake and remove a pending request;
`false` when no pending request matches. -/
def ConsentCache.resolveConsentRequest (st : ConsentState) (requestId : String) :
    Bool × ConsentState :=
  if st.pendingRequests.contains requestId then
    (true, { st with pendingRequests := st.pendingRequests.erase requestId })
  else (false, st)

/-- Parameters of `mcpp/provide_consent`. -/
structure ProvideConsentParams where
  request_id : Option String := Option.none
  decision : Option String := Option.none
  remember : Option Bool := Option.none
  duration_minutes : Option Nat := Option.none
deriving Repr, DecidableEq

/-- Response of `handleProvideConsent`. -/
inductive ProvideConsentResponse where
  | ok (request_id : String) (decision : String) (remembered : Bool) (message : String)
  | err (code : Int) (message : String)
deriving Repr, DecidableEq

/-- `handleProvideConsent` from `mcpp-endpoints.ts`: parameter and decision
validation, then resolution of the pending request. The source block guarded
by `remember` and `duration_minutes` holds only a comment (the context
needed to form a decision-cache key is not available), so no decision-cache
entry is written on any path. -/
def handleProvideConsent (params : Option ProvideConsentParams) (st : ConsentState) :
    ProvideConsentResponse × ConsentState :=
  match params.bind (·.request_id), params.bind (·.decision) with
  | some request_id, some decision =>
    if request_id.isEmpty || decision.isEmpty then
      (.err MCPP_ERRORS.INVALID_PARAMS
        "Invalid params: request_id and decision are required", st)
    else if !(["allow", "deny"].contains decision) then
      (.err MCPP_ERRORS.INVALID_PARAMS
        "Invalid decision: must be \x22allow\x22 or \x22deny\x22", st)
    else
      let r := ConsentCache.resolveConsentRequest st request_id
      if r.1 = false then
        (.err MCPP_ERRORS.DATA_NOT_FOUND "Consent request not found or expired", r.2)
      else
        let remembered := (params.bind (·.remember)).getD false
        (.ok request_id decision remembered
          ("Consent " ++ decision ++ " recorded successfully"), r.2)
  | _, _ =>
    (.err MCPP_ERRORS.INVALID_PARAMS
      "Invalid params: request_id and decision are required", st)

theorem findBestStep_lt {simf : String → String → ℚ} {kw : String} (id : String)
    {b : BestMatch} {c : Nat × String × Json}
    (h : b.similarity < cellSimilarity simf kw c.2.2) :
    findBestStep simf kw id b c =
      ⟨"\x7b" ++ id ++ "." ++ toString c.1 ++ "." ++ c.2.1 ++ "\x7d",
       cellSimilarity simf kw c.2.2, (c.1 : Int), c.2.1⟩ := by
  simp only [findBestStep]
  rw [if_pos h]

theorem findBestStep_ge {simf : String → String → ℚ} {kw : String} (id : String)
    {b : BestMatch} {c : Nat × String × Json}
    (h : ¬ b.similarity < cellSimilarity simf kw c.2.2) :
    findBestStep simf kw id b c = b := by
  simp only [findBestStep]
  rw [if_neg h]

theorem findBestStep_similarity (simf : String → String → ℚ) (kw id : String)
    (b : BestMatch) (c : Nat × String × Json) :
    (findBestStep simf kw id b c).similarity =
      max b.similarity (cellSimilarity simf kw c.2.2) := by
  by_cases h : b.similarity < cellSimilarity simf kw c.2.2
  · rw [findBestStep_lt id h]
    exact (max_eq_right (le_of_lt h)).symm
  · rw [findBestStep_ge id h]
    exact (max_eq_left (le_of_not_lt h)).symm

theorem findBest_sim_foldl (simf : String → String → ℚ) (kw id : String) :
    ∀ (cells : List (Nat × String × Json)) (init : BestMatch),
      (cells.foldl (findBestStep simf kw id) init).similarity =
        cells.foldl (fun b c => max b (cellSimilarity simf kw c.2.2)) init.similarity := by
  intro cells
  induction cells with
  | nil => intro init; rfl
  | cons c cs ih =>
    intro init
    rw [List.foldl_cons, List.foldl_cons, ih, findBestStep_similarity]

theorem foldl_max_le_of_all {f : Nat × String × Json → ℚ} {M b : ℚ}
    (l : List (Nat × String × Json)) (hb : b ≤ M) (hl : ∀ x ∈ l, f x ≤ M) :
    l.foldl (fun acc x => max acc (f x)) b ≤ M := by
  induction l generalizing b with
  | nil => exact hb
  | cons x xs ih =>
    rw [List.foldl_cons]
    exact ih (max_le hb (hl x (by simp))) fun y hy => hl y (by simp [hy])

theorem foldl_max_lt_of_all {f : Nat × String × Json → ℚ} {M b : ℚ}
    (l : List (Nat × String × Json)) (hb : b < M) (hl : ∀ x ∈ l, f x < M) :
    l.foldl (fun acc x => max acc (f x)) b < M := by
  induction l generalizing b with
  | nil => exact hb
  | cons x xs ih =>
    rw [List.foldl_cons]
    exact ih (max_lt hb (hl x (by simp))) fun y hy => hl y (by simp [hy])

theorem foldl_max_init_le {f : Nat × String × Json → ℚ} {b : ℚ}
    (l : List (Nat × String × Json)) :
    b ≤ l.foldl (fun acc x => max acc (f x)) b := by
  induction l generalizing b with
  | nil => exact le_rfl
  | cons x xs ih =>
    rw [List.foldl_cons]
    exact le_trans (le_max_left _ _) ih

theorem foldl_max_mem_le {f : Nat × String × Json → ℚ} {b : ℚ}
    (l : List (Nat × String × Json)) :
    ∀ x ∈ l, f x ≤ l.foldl (fun acc x => max acc (f x)) b := by
  induction l generalizing b with
  | nil => simp
  | cons y ys ih =>
    intro x hx
    rw [List.foldl_cons]
    rcases List.mem_cons.mp hx with hx | hx
    · subst hx
      exact le_trans (le_max_right _ _) (foldl_max_init_le ys)
    · exact ih x hx

theorem foldl_max_split_eq {f : Nat × String × Json → ℚ} {b : ℚ}
    (l r : List (Nat × String × Json)) (cc : Nat × String × Json)
    (hb : b < f cc) (hl : ∀ x ∈ l, f x < f cc) (hr : ∀ x ∈ r, f x ≤ f cc) :
    (l ++ cc :: r).foldl (fun acc x => max acc (f x)) b = f cc := by
  rw [List.foldl_append, List.foldl_cons]
  have h1 : l.foldl (fun acc x => max acc (f x)) b < f cc := foldl_max_lt_of_all l hb hl
  rw [max_eq_right (le_of_lt h1)]
  exact le_antisymm (foldl_max_le_of_all r le_rfl hr) (foldl_max_init_le r)

theorem findBest_const (simf : String → String → ℚ) (kw id : String)
    (cells : List (Nat × String × Json)) :
    ∀ (init : BestMatch), (∀ x ∈ cells, cellSimilarity simf kw x.2.2 ≤ init.similarity) →
      cells.foldl (findBestStep simf kw id) init = init := by
  induction cells with
  | nil => intro init _; rfl
  | cons c cs ih =>
    intro init hall
    rw [List.foldl_cons, findBestStep_ge id (not_lt.mpr (hall c (by simp)))]
    exact ih init fun x hx => hall x (by simp [hx])

theorem findBest_split (simf : String → String → ℚ) (kw id : String)
    (l r : List (Nat × String × Json)) (cc : Nat × String × Json)
    (hl : ∀ x ∈ l, cellSimilarity simf kw x.2.2 < cellSimilarity simf kw cc.2.2)
    (hb : -1 < cellSimilarity simf kw cc.2.2)
    (hr : ∀ x ∈ r, cellSimilarity simf kw x.2.2 ≤ cellSimilarity simf kw cc.2.2) :
    findBest simf kw id (l ++ cc :: r) =
      ⟨"\x7b" ++ id ++ "." ++ toString cc.1 ++ "." ++ cc.2.1 ++ "\x7d",
       cellSimilarity simf kw cc.2.2, (cc.1 : Int), cc.2.1⟩ := by
  unfold findBest
  rw [List.foldl_append, List.foldl_cons]
  have h1 : (l.foldl (findBestStep simf kw id) ⟨"", -1, -1, ""⟩).similarity <
      cellSimilarity simf kw cc.2.2 := by
    rw [findBest_sim_foldl]
    exact foldl_max_lt_of_all l hb hl
  rw [findBestStep_lt id h1]
  exact findBest_const simf kw id r _ hr

theorem DataUsagePermissions.get_setAt_ne (dup : DataUsagePermissions)
    (level : DataUsage) (p : Option Perm) (u : DataUsage) (h : u ≠ level) :
    (dup.setAt level p).get u = dup.get u := by
  cases u <;> cases level <;>
    first
    | exact absurd rfl h
    | rfl

theorem DataUsagePermissions.get_empty (u : DataUsage) :
    DataUsagePermissions.get {} u = Option.none := by
  cases u <;> rfl

/-- Replace the tool policy entry at one usage level, creating the nested
policy objects when absent. -/
def Tool.setPermission (t : Tool) (level : DataUsage) (p : Option Perm) : Tool :=
  let dp := t.dataPolicy.getD {}
  let dup := dp.data_usage_permissions.getD {}
  { t with dataPolicy := some { dp with data_usage_permissions := some (dup.setAt level p) } }

theorem getEffective_setPermission (t : Tool) (level : DataUsage) (p : Option Perm)
    (u : DataUsage) (cfg : McppServerConfig) (h : u ≠ level) :
    getEffectiveDataUsagePermission (some (t.setPermission level p)) u cfg =
      getEffectiveDataUsagePermission (some t) u cfg := by
  unfold getEffectiveDataUsagePermission Tool.setPermission
  cases hdp : t.dataPolicy with
  | none =>
    simp [hdp, DataUsagePermissions.get_setAt_ne _ _ _ _ h, DataUsagePermissions.get_empty]
  | some dp =>
    cases hdup : dp.data_usage_permissions with
    | none =>
      simp [hdp, hdup, DataUsagePermissions.get_setAt_ne _ _ _ _ h,
        DataUsagePermissions.get_empty]
    | some dup =>
      simp [hdp, hdup, DataUsagePermissions.get_setAt_ne _ _ _ _ h]

theorem setPermission_target_chain (t : Tool) (level : DataUsage) (p : Option Perm) :
    ((some (t.setPermission level p)).bind (·.dataPolicy) |>.bind (·.target_permissions)) =
      ((some t).bind (·.dataPolicy) |>.bind (·.target_permissions)) := by
  cases hdp : t.dataPolicy <;> simp [Tool.setPermission, hdp]

theorem setPermission_consent_chain (t : Tool) (level : DataUsage) (p : Option Perm) :
    ((some (t.setPermission level p)).bind (·.dataPolicy) |>.bind (·.consent_overrides)) =
      ((some t).bind (·.dataPolicy) |>.bind (·.consent_overrides)) := by
  cases hdp : t.dataPolicy <;> simp [Tool.setPermission, hdp]

theorem validateTargetPermissions_setPermission (t : Tool) (level : DataUsage)
    (p : Option Perm) (ctx : McppUsageContext) (cfg : McppServerConfig) :
    validateTargetPermissions (some (t.setPermission level p)) ctx cfg =
      validateTargetPermissions (some t) ctx cfg := by
  unfold validateTargetPermissions
  rw [setPermission_target_chain]

theorem checkConsentRequired_setPermission (t : Tool) (level : DataUsage)
    (p : Option Perm) (ctx : McppUsageContext) (cfg : McppServerConfig) :
    checkConsentRequired (some (t.setPermission level p)) ctx cfg =
      checkConsentRequired (some t) ctx cfg := by
  unfold checkConsentRequired consentMessageOrDefault
  rw [setPermission_consent_chain]
  rfl

theorem createConsentRequest_setPermission (t : Tool) (level : DataUsage)
    (p : Option Perm) (ctx : McppUsageContext) (cfg : McppServerConfig)
    (pd : Json) (rid : String) :
    createConsentRequest (some (t.setPermission level p)) ctx cfg pd rid =
      createConsentRequest (some t) ctx cfg pd rid := by
  unfold createConsentRequest
  rw [setPermission_consent_chain]
  rfl

/-- A permissive configuration: every usage level allowed by default, all
targets allowed, no consent triggers, no trusted lists, no categories. -/
def permissiveConfig : McppServerConfig :=
  ⟨⟨⟨.allow, .allow, .allow, .allow⟩,
    ⟨.allow, .all, .all, .allow, .allow⟩,
    ⟨⟨false, false, false, false, false⟩, 30, "deny", 60, [], [], true, true, true⟩,
    []⟩⟩

/-- A tool denying `display` while allowing `transfer`. -/
def hierTool : Tool :=
  { name := "t"
  , isSensitive := false
  , dataPolicy := some
      { data_usage_permissions := some
          { display := some .deny, transfer := some .allow } } }

/-- A client usage context for the destination `app1` at a given level. -/
def clientCtx (u : DataUsage) : McppUsageContext :=
  ⟨u, ⟨"h1", Option.none, 0⟩, ⟨.client, some (.str "app1")⟩⟩

/-- A sensitive cached table. -/
def sensitiveEntry : CachedEntry :=
  .table ⟨["ID", "Name"], [[.str "1", .str "Ana"]]⟩

/-- C1 (as stated) is false: a `get_data` request that supplies no usage
context receives the cached sensitive entry although no policy evaluation
ran and nothing produced `allowed = true`. -/
theorem getData_no_context_returns_data :
    handleGetData (some ⟨some "t1", Option.none⟩) Option.none (some permissiveConfig)
      [("t1", sensitiveEntry)] "r" = .ok sensitiveEntry := rfl

/-- C1 (amended): when the request carries a tool-call id of a cached entry,
the dispatcher returns the entry without policy evaluation if no usage
context is supplied, and otherwise returns the entry exactly when
`validateDataAccess` yields `allowed = true`, returning the validation error
envelope otherwise. -/
theorem getData_policy_gate
    (params : GetDataParams) (tool : Option Tool) (cfg : McppServerConfig)
    (cache : DataCache) (rid : String) (tcid : String) (entry : CachedEntry)
    (hid : params.tool_call_id = some tcid) (hne : tcid ≠ "")
    (hget : cache.get tcid = some entry) :
    (params.usage_context = Option.none →
      handleGetData (some params) tool (some cfg) cache rid = .ok entry)
    ∧ (∀ ctx, params.usage_context = some ctx →
        handleGetData (some params) tool (some cfg) cache rid =
          (if (validateDataAccess tool ctx cfg entry.toJson rid).allowed then .ok entry
           else .err (validateDataAccess tool ctx cfg entry.toJson rid).error_code
             (validateDataAccess tool ctx cfg entry.toJson rid).error_message
             (validateDataAccess tool ctx cfg entry.toJson rid).consent_request)) := by
  have hfalse : tcid.isEmpty = false := by
    rw [Bool.eq_false_iff]
    intro hemp
    exact hne ((String.isEmpty_iff tcid).mp hemp)
  constructor
  · intro hctx
    simp [handleGetData, hid, hget, hctx, hfalse]
  · intro ctx hctx
    simp [handleGetData, hid, hget, hctx, hfalse]

/-- Witness for the amended C1: a display-to-client request on the
permissive configuration is allowed and returns the cached entry. -/
theorem getData_policy_gate_witness :
    handleGetData (some ⟨some "t1", some (clientCtx .display)⟩) Option.none
      (some permissiveConfig) [("t1", sensitiveEntry)] "r" = .ok sensitiveEntry := by
  have h := (getData_policy_gate ⟨some "t1", some (clientCtx .display)⟩ Option.none
    permissiveConfig [("t1", sensitiveEntry)] "r" "t1" sensitiveEntry rfl
    (by decide) rfl).2 (clientCtx .display) rfl
  rw [h]
  rfl

/-- C2: `provide_consent` with `remember` and `duration_minutes` both set
resolves the pending request and reports `remembered := true`, but the
decision cache stays empty and every subsequent lookup misses — the source
block that would record the entry contains only a comment. -/
theorem provideConsent_remember_records_nothing :
    (handleProvideConsent (some ⟨some "r1", some "allow", some true, some 60⟩)
        ⟨[], ["r1"]⟩).1 =
      .ok "r1" "allow" true "Consent allow recorded successfully"
    ∧ (handleProvideConsent (some ⟨some "r1", some "allow", some true, some 60⟩)
        ⟨[], ["r1"]⟩).2.cache = []
    ∧ ∀ (key : String) (now : Int),
        (ConsentCache.getConsent
          (handleProvideConsent (some ⟨some "r1", some "allow", some true, some 60⟩)
            ⟨[], ["r1"]⟩).2 key now).1 = Option.none := by
  refine ⟨rfl, rfl, ?_⟩
  intro key now
  rfl

/-- C3 (as stated) is false: the tool denying `display` while allowing
`transfer` is denied at `display` yet allowed at `transfer` for the same
target, because `validateDataAccess` never invokes the hierarchy helper
`validateDataUsage`. -/
theorem hierarchy_monotonicity_fails :
    (validateDataAccess (some hierTool) (clientCtx .display) permissiveConfig
      .null "r").allowed = false
    ∧ (validateDataAccess (some hierTool) (clientCtx .transfer) permissiveConfig
      .null "r").allowed = true := by
  exact ⟨rfl, rfl⟩

/-- C3 (amended): evaluation at a level other than `display` is unaffected
by the tool policy entry for `display`: replacing that entry by any value
(including an explicit deny) leaves the evaluation result unchanged. -/
theorem validateDataAccess_display_irrelevant
    (t : Tool) (p : Option Perm) (ctx : McppUsageContext) (cfg : McppServerConfig)
    (pd : Json) (rid : String) (h : ctx.data_usage ≠ .display) :
    validateDataAccess (some (t.setPermission .display p)) ctx cfg pd rid =
      validateDataAccess (some t) ctx cfg pd rid := by
  unfold validateDataAccess
  rw [getEffective_setPermission t .display p ctx.data_usage cfg h,
    validateTargetPermissions_setPermission, checkConsentRequired_setPermission,
    createConsentRequest_setPermission]

/-- Witness for the amended C3 at a concrete transfer evaluation. -/
theorem validateDataAccess_display_irrelevant_witness :
    validateDataAccess (some (hierTool.setPermission .display (some .deny)))
        (clientCtx .transfer) permissiveConfig .null "r" =
      validateDataAccess (some hierTool) (clientCtx .transfer) permissiveConfig .null "r" :=
  validateDataAccess_display_irrelevant hierTool (some .deny) (clientCtx .transfer)
    permissiveConfig .null "r" (by decide)

/-- C5 (as stated) is false: a tool-level deny at the requested level fails
with `INSUFFICIENT_PERMISSIONS` (-32005), not `INVALID_DATA_USAGE`
(-32006). -/
theorem usage_deny_error_code_not_invalid_data_usage :
    (validateDataAccess (some hierTool) (clientCtx .display) permissiveConfig
      .null "r").error_code = some (-32005)
    ∧ (validateDataAccess (some hierTool) (clientCtx .display) permissiveConfig
      .null "r").error_code ≠ some (-32006)
    ∧ MCPP_ERRORS.INVALID_DATA_USAGE = -32006 := by
  refine ⟨rfl, ?_, rfl⟩
  intro hh
  rw [show (validateDataAccess (some hierTool) (clientCtx .display) permissiveConfig
      .null "r").error_code = some (-32005) from rfl] at hh
  injection hh with hh
  exact absurd hh (by decide)

/-- C5 (amended): an effective `deny` at the requested level fails with
error code -32005 `INSUFFICIENT_PERMISSIONS` and the fixed message, and the
deny is evaluated strictly at the requested level: the entry at any other
level never changes the effective permission. -/
theorem usage_deny_insufficient_permissions
    (tool : Option Tool) (ctx : McppUsageContext) (cfg : McppServerConfig)
    (pd : Json) (rid : String)
    (heff : getEffectiveDataUsagePermission tool ctx.data_usage cfg = .deny) :
    validateDataAccess tool ctx cfg pd rid =
      { allowed := false
      , error_code := some MCPP_ERRORS.INSUFFICIENT_PERMISSIONS
      , error_message := some ("Data usage \x27" ++ ctx.data_usage.toStr ++
          "\x27 is not permitted for this tool")
      , consent_request := Option.none
      , validation_details := ⟨false, false, ⟨false, ["denied"], Option.none, false, Option.none⟩⟩ }
    ∧ MCPP_ERRORS.INSUFFICIENT_PERMISSIONS = -32005
    ∧ ∀ (t : Tool) (v : DataUsage) (p : Option Perm), v ≠ ctx.data_usage →
        getEffectiveDataUsagePermission (some (t.setPermission v p)) ctx.data_usage cfg =
          getEffectiveDataUsagePermission (some t) ctx.data_usage cfg := by
  refine ⟨?_, rfl, ?_⟩
  · unfold validateDataAccess
    rw [heff, if_pos rfl]
  · intro t v p hv
    exact getEffective_setPermission t v p ctx.data_usage cfg (Ne.symm hv)

/-- Witness for the amended C5 at the display-denying tool. -/
theorem usage_deny_insufficient_permissions_witness :
    validateDataAccess (some hierTool) (clientCtx .display) permissiveConfig .null "r" =
      { allowed := false
      , error_code := some MCPP_ERRORS.INSUFFICIENT_PERMISSIONS
      , error_message := some ("Data usage \x27display\x27 is not permitted for this tool")
      , consent_request := Option.none
      , validation_details := ⟨false, false, ⟨false, ["denied"], Option.none, false, Option.none⟩⟩ } :=
  (usage_deny_insufficient_permissions (some hierTool) (clientCtx .display)
    permissiveConfig .null "r" rfl).1

/-- C10: every falsy `data` parameter — the empty string, zero, `false` and
`null` — is rejected with `INVALID_PARAMS` (-32602) before any resolution
or validation, for every cache, tool, configuration and context. -/
theorem resolvePlaceholders_rejects_falsy_data
    (cache : DataCache) (tool : Option Tool) (cfg : Option McppServerConfig)
    (uc : Option McppUsageContext) (tn : Option String) (rid : String) :
    (handleResolvePlaceholders (some ⟨some (.str ""), uc, tn⟩) tool cfg cache rid =
      .err (some MCPP_ERRORS.INVALID_PARAMS)
        (some "Invalid params: data is required for placeholder resolution") Option.none)
    ∧ (handleResolvePlaceholders (some ⟨some (.num 0), uc, tn⟩) tool cfg cache rid =
      .err (some MCPP_ERRORS.INVALID_PARAMS)
        (some "Invalid params: data is required for placeholder resolution") Option.none)
    ∧ (handleResolvePlaceholders (some ⟨some (.bool false), uc, tn⟩) tool cfg cache rid =
      .err (some MCPP_ERRORS.INVALID_PARAMS)
        (some "Invalid params: data is required for placeholder resolution") Option.none)
    ∧ (handleResolvePlaceholders (some ⟨some .null, uc, tn⟩) tool cfg cache rid =
      .err (some MCPP_ERRORS.INVALID_PARAMS)
        (some "Invalid params: data is required for placeholder resolution") Option.none)
    ∧ MCPP_ERRORS.INVALID_PARAMS = -32602 :=
  ⟨rfl, rfl, rfl, rfl, rfl⟩

/-- A tool whose only policy entry is `transfer := prompt`. -/
def promptTool : Tool :=
  { name := "pt"
  , isSensitive := false
  , dataPolicy := some { data_usage_permissions := some { transfer := some .prompt } } }

/-- A configuration that trusts the destination `modelx` for consent. -/
def trustedLlmConfig : McppServerConfig :=
  ⟨⟨⟨.allow, .allow, .allow, .allow⟩,
    ⟨.allow, .all, .all, .allow, .allow⟩,
    ⟨⟨false, false, false, false, false⟩, 30, "deny", 60, ["modelx"], [], true, true, true⟩,
    []⟩⟩

/-- A transfer context targeting the llm destination `modelx`. -/
def llmCtx : McppUsageContext :=
  ⟨.transfer, ⟨"h1", Option.none, 0⟩, ⟨.llm, some (.str "modelx")⟩⟩

/-- C4: whenever the effective usage permission is the literal `prompt` and
the target-permission step passes, the evaluator returns a not-allowed
result with code `CONSENT_REQUIRED` (-32007) carrying a consent request —
whatever the consent check decided, so in particular when no trigger fires
and when the destination is trusted or consent-exempt. -/
theorem prompt_literal_requires_consent
    (tool : Option Tool) (ctx : McppUsageContext) (cfg : McppServerConfig)
    (pd : Json) (rid : String)
    (heff : getEffectiveDataUsagePermission tool ctx.data_usage cfg = .prompt)
    (htgt : (validateTargetPermissions tool ctx cfg).allowed = true) :
    (validateDataAccess tool ctx cfg pd rid).allowed = false
    ∧ (validateDataAccess tool ctx cfg pd rid).error_code = some MCPP_ERRORS.CONSENT_REQUIRED
    ∧ MCPP_ERRORS.CONSENT_REQUIRED = -32007
    ∧ (validateDataAccess tool ctx cfg pd rid).consent_request.isSome = true := by
  unfold validateDataAccess
  rw [heff]
  rw [if_neg (by decide : ¬(Perm.prompt = Perm.deny))]
  rw [if_neg (by simp [htgt])]
  by_cases hcc : (checkConsentRequired tool ctx cfg).consent_required = true
  · rw [if_pos hcc]
    exact ⟨rfl, rfl, rfl, rfl⟩
  · rw [if_neg hcc, if_pos rfl]
    exact ⟨rfl, rfl, rfl, rfl⟩

/-- Witness for C4: the prompt-only tool transferring to a trusted llm
destination, for which no consent trigger fires, still gets -32007 with a
consent request. -/
theorem prompt_literal_requires_consent_witness :
    (validateDataAccess (some promptTool) llmCtx trustedLlmConfig .null "r").allowed = false
    ∧ (validateDataAccess (some promptTool) llmCtx trustedLlmConfig .null "r").error_code =
        some MCPP_ERRORS.CONSENT_REQUIRED
    ∧ MCPP_ERRORS.CONSENT_REQUIRED = -32007
    ∧ (validateDataAccess (some promptTool) llmCtx trustedLlmConfig
        .null "r").consent_request.isSome = true :=
  prompt_literal_requires_consent (some promptTool) llmCtx trustedLlmConfig .null "r" rfl rfl

/-- A tool blocking `gpt-4` while also listing it in the allowlist. -/
def blockedTool : Tool :=
  { name := "bt"
  , isSensitive := false
  , dataPolicy := some
      { target_permissions := some
          { allowed_targets := some (.list ["gpt-4"])
          , blocked_targets := some ["gpt-4"] } } }

/-- A transfer context targeting the llm destination `gpt-4`. -/
def gptCtx : McppUsageContext :=
  ⟨.transfer, ⟨"h1", Option.none, 0⟩, ⟨.llm, some (.str "gpt-4")⟩⟩

/-- C6: a destination named in the tool's `blocked_targets` is denied with
the reason built from the target type, whatever `allowed_targets` says (the
block is checked first), and the evaluator turns this into error -32005
`INSUFFICIENT_PERMISSIONS` with the corresponding message. -/
theorem blocked_target_precedence
    (t : Tool) (tp : TargetPermissions) (bl : List String) (ctx : McppUsageContext)
    (cfg : McppServerConfig) (pd : Json) (rid : String) (dest : String)
    (hchain : t.dataPolicy.bind (·.target_permissions) = some tp)
    (hbl : tp.blocked_targets = some bl)
    (hdest : ctx.target.destination = some (.str dest))
    (hne : dest ≠ "")
    (hmem : bl.contains dest = true)
    (heff : getEffectiveDataUsagePermission (some t) ctx.data_usage cfg ≠ .deny) :
    validateTargetPermissions (some t) ctx cfg =
      ⟨false, ctx.target.type.toStr ++ "_blocked_by_tool"⟩
    ∧ validateDataAccess (some t) ctx cfg pd rid =
      { allowed := false
      , error_code := some MCPP_ERRORS.INSUFFICIENT_PERMISSIONS
      , error_message := some ("Target access denied: " ++ ctx.target.type.toStr ++
          "_blocked_by_tool")
      , consent_request := Option.none
      , validation_details := ⟨true, false,
          ⟨false, ["target_denied"], Option.none, false, Option.none⟩⟩ }
    ∧ MCPP_ERRORS.INSUFFICIENT_PERMISSIONS = -32005 := by
  have hchain' : ((some t).bind (·.dataPolicy)).bind (·.target_permissions) = some tp := hchain
  have hemp : dest.isEmpty = false := by
    rw [Bool.eq_false_iff]
    intro hemp
    exact hne ((String.isEmpty_iff dest).mp hemp)
  have hdt : destTruthy ctx.target.destination = true := by
    rw [hdest]
    simp [destTruthy, hemp]
  have hmem' : dest ∈ bl := by simpa using hmem
  have h1 : validateTargetPermissions (some t) ctx cfg =
      ⟨false, ctx.target.type.toStr ++ "_blocked_by_tool"⟩ := by
    unfold validateTargetPermissions
    rw [hchain']
    simp only
    rw [if_pos hdt]
    unfold toolTargetDecision
    rw [hbl, hdest]
    simp [destIncludes, hmem']
  refine ⟨h1, ?_, rfl⟩
  unfold validateDataAccess
  rw [if_neg heff, h1]
  rfl

/-- Witness for C6: the tool blocking `gpt-4` denies the llm transfer with
reason `llm_blocked_by_tool` and code -32005, although `gpt-4` is also in
`allowed_targets`. -/
theorem blocked_target_precedence_witness :
    validateTargetPermissions (some blockedTool) gptCtx permissiveConfig =
      ⟨false, "llm_blocked_by_tool"⟩
    ∧ validateDataAccess (some blockedTool) gptCtx permissiveConfig .null "r" =
      { allowed := false
      , error_code := some MCPP_ERRORS.INSUFFICIENT_PERMISSIONS
      , error_message := some "Target access denied: llm_blocked_by_tool"
      , consent_request := Option.none
      , validation_details := ⟨true, false,
          ⟨false, ["target_denied"], Option.none, false, Option.none⟩⟩ }
    ∧ MCPP_ERRORS.INSUFFICIENT_PERMISSIONS = -32005 :=
  blocked_target_precedence blockedTool
    { allowed_targets := some (.list ["gpt-4"]), blocked_targets := some ["gpt-4"] }
    ["gpt-4"] gptCtx permissiveConfig .null "r" "gpt-4" rfl rfl rfl (by decide) rfl (by decide)

/-- A cache whose first cell is itself a placeholder referring to the
second cell. -/
def selfRefCache : DataCache :=
  [("t1", .table ⟨["A", "B"], [[.str "\x7bt1.0.B\x7d", .str "done"]]⟩)]

/-- C8 (as stated) is false: when a resolved cell value is itself
placeholder text, a second application of the resolver changes the output
of the first. -/
theorem resolver_not_idempotent :
    resolveInObject selfRefCache (resolveInObject selfRefCache (.str "\x7bt1.0.A\x7d")) ≠
      resolveInObject selfRefCache (.str "\x7bt1.0.A\x7d") := by
  have h1 : resolveInObject selfRefCache (.str "\x7bt1.0.A\x7d") = .str "\x7bt1.0.B\x7d" := rfl
  rw [h1]
  have h2 : resolveInObject selfRefCache (.str "\x7bt1.0.B\x7d") = .str "done" := rfl
  rw [h2]
  intro hh
  injection hh with hs
  exact absurd hs (by decide)

/-- C8 (amended): a second application of the resolver returns the first
output unchanged whenever that output admits no further successful
resolution — in particular whenever no resolved cell value or splice formed
new placeholder text; a pass that resolves nothing is the identity. -/
theorem resolver_second_pass_fixed (cache : DataCache) (x : Json)
    (h : resolvesNone cache (resolveInObject cache x) = true) :
    resolveInObject cache (resolveInObject cache x) = resolveInObject cache x :=
  resolveInObject_id_of_resolvesNone cache (resolveInObject cache x) h

/-- Witness for the amended C8 on a tree whose only placeholder misses the
cache. -/
theorem resolver_second_pass_fixed_witness :
    resolvesNone ([] : DataCache)
      (resolveInObject [] (.str "\x7bmissing.0.X\x7d")) = true
    ∧ resolveInObject [] (resolveInObject [] (.str "\x7bmissing.0.X\x7d")) =
        resolveInObject [] (.str "\x7bmissing.0.X\x7d") :=
  ⟨rfl, resolver_second_pass_fixed [] (.str "\x7bmissing.0.X\x7d") rfl⟩

/-- C9: over the row-major scan of a cached table, the reference finder
returns a placeholder exactly when the maximal similarity exceeds 7/10: the
returned similarity is that maximum, the winning cell is the first one
attaining it in scan order, and otherwise the error -32002 reports the
maximum as the best observed similarity. -/
theorem findReference_best_match
    (simf : String → String → ℚ) (cache : DataCache) (tcid kw : String)
    (payload : TableData)
    (htc : tcid ≠ "") (hkw : kw ≠ "")
    (hlook : cache.get tcid = some (.table payload)) :
    (∀ l cc r,
        scanCellsAll payload.headers payload.rows = l ++ cc :: r →
        cellSimilarity simf kw cc.2.2 =
          (scanCellsAll payload.headers payload.rows).foldl
            (fun b x => max b (cellSimilarity simf kw x.2.2)) (-1) →
        (∀ x ∈ l, cellSimilarity simf kw x.2.2 < cellSimilarity simf kw cc.2.2) →
        SIMILARITY_THRESHOLD < cellSimilarity simf kw cc.2.2 →
        handleFindReference simf (some ⟨some tcid, some kw, Option.none⟩) cache =
          .ok ("\x7b" ++ tcid ++ "." ++ toString cc.1 ++ "." ++ cc.2.1 ++ "\x7d")
            ("A match was found in column " ++ cc.2.1 ++ " at row " ++ toString (cc.1 : Int))
            (cellSimilarity simf kw cc.2.2) tcid (cc.1 : Int) cc.2.1 kw)
    ∧ (¬ SIMILARITY_THRESHOLD <
          (scanCellsAll payload.headers payload.rows).foldl
            (fun b x => max b (cellSimilarity simf kw x.2.2)) (-1) →
        handleFindReference simf (some ⟨some tcid, some kw, Option.none⟩) cache =
          .err MCPP_ERRORS.REFERENCE_NOT_FOUND
            "No suitable reference found for the given keyword"
            (some ((scanCellsAll payload.headers payload.rows).foldl
              (fun b x => max b (cellSimilarity simf kw x.2.2)) (-1))))
    ∧ (∀ x ∈ scanCellsAll payload.headers payload.rows,
        cellSimilarity simf kw x.2.2 ≤
          (scanCellsAll payload.headers payload.rows).foldl
            (fun b x => max b (cellSimilarity simf kw x.2.2)) (-1))
    ∧ MCPP_ERRORS.REFERENCE_NOT_FOUND = -32002 := by
  have h1 : tcid.isEmpty = false := by
    rw [Bool.eq_false_iff]
    intro hemp
    exact htc ((String.isEmpty_iff tcid).mp hemp)
  have h2 : kw.isEmpty = false := by
    rw [Bool.eq_false_iff]
    intro hemp
    exact hkw ((String.isEmpty_iff kw).mp hemp)
  have hhf : handleFindReference simf (some ⟨some tcid, some kw, Option.none⟩) cache =
      finishFindReference simf kw tcid (scanCellsAll payload.headers payload.rows) := by
    simp [handleFindReference, hlook, h1, h2]
  refine ⟨?_, ?_, ?_, rfl⟩
  · intro l cc r hsplit hM hl hthr
    have hb : (-1 : ℚ) < cellSimilarity simf kw cc.2.2 :=
      lt_trans (by norm_num [SIMILARITY_THRESHOLD]) hthr
    have hr : ∀ x ∈ r, cellSimilarity simf kw x.2.2 ≤ cellSimilarity simf kw cc.2.2 := by
      intro x hx
      rw [hM]
      exact foldl_max_mem_le _ x (by rw [hsplit]; simp [hx])
    rw [hhf, hsplit]
    unfold finishFindReference
    rw [findBest_split simf kw tcid l r cc hl hb hr]
    simp only
    rw [if_pos hthr]
  · intro hnl
    rw [hhf]
    unfold finishFindReference
    have hsim : (findBest simf kw tcid (scanCellsAll payload.headers payload.rows)).similarity =
        (scanCellsAll payload.headers payload.rows).foldl
          (fun b x => max b (cellSimilarity simf kw x.2.2)) (-1) := by
      unfold findBest
      rw [findBest_sim_foldl]
    rw [if_neg (by rw [hsim]; exact hnl), hsim]
  · intro x hx
    exact foldl_max_mem_le _ x hx

/-- An exact-match similarity metric used to instantiate the finder. -/
def simEqOne : String → String → ℚ := fun x y => if x == y then 1 else 0

/-- The similarity threshold lies strictly below an exact match. -/
theorem similarity_threshold_lt_one : SIMILARITY_THRESHOLD < 1 := by
  norm_num [SIMILARITY_THRESHOLD]

/-- Witness for C9: the keyword matches the first cell exactly and the
finder mints its placeholder with similarity 1. -/
theorem findReference_best_match_witness :
    handleFindReference simEqOne (some ⟨some "t1", some "ana", Option.none⟩)
      [("t1", .table ⟨["Name", "Email"],
        [[.str "Ana", .str "a@x"], [.str "Bo", .str "b@y"]]⟩)] =
      .ok "\x7bt1.0.Name\x7d" "A match was found in column Name at row 0" 1 "t1" 0 "Name" "ana" := by
  have hcell : cellSimilarity simEqOne "ana" (Json.str "Ana") = 1 := by decide
  have h := (findReference_best_match simEqOne
    [("t1", .table ⟨["Name", "Email"], [[.str "Ana", .str "a@x"], [.str "Bo", .str "b@y"]]⟩)]
    "t1" "ana" ⟨["Name", "Email"], [[.str "Ana", .str "a@x"], [.str "Bo", .str "b@y"]]⟩
    (by decide) (by decide) rfl).1 [] (0, "Name", .str "Ana")
    [(0, "Email", .str "a@x"), (1, "Name", .str "Bo"), (1, "Email", .str "b@y")]
    rfl (by decide) (by simp)
    (lt_of_lt_of_eq similarity_threshold_lt_one hcell.symm)
  rw [h, hcell]
  rfl

end Mcpp
